import Mathlib

/-!
Shallow embedding of the kernel-coordination core of the `os-simulator`
repository (C++ sources under `src/`), together with theorems settling the
frozen claims about its specification.

Conventions of the embedding:
* C++ `int` fields become `Int`; `size_t` indices become `Nat`.
* `std::shared_ptr<Process>` sharing is modelled by an arena
  (`List Process`) keyed by `pid`; every holder of a pointer stores the
  `pid` and reads/writes through the arena.  Null pointers are modelled by
  a failing arena lookup.
* Mutexes, condition variables and the per-process worker threads have no
  observable effect on the simulated state machine (the thread body only
  sleeps and sets `step_complete`), so they are not modelled.
* `std::sort` (not stable) is embedded as `List.insertionSort` on the
  non-strict order induced by the same comparator; theorems about sorted
  queues only use sortedness and permutation facts, which hold for every
  conforming `std::sort`.
-/

namespace OSSim

/-- `BurstType` from `include/core/burst.hpp` (constructors lower-cased). -/
inductive BurstType where
| cpu : BurstType
| io : BurstType
deriving DecidableEq, Repr

/-- `Burst` from `include/core/burst.hpp` / `src/core/burst.cpp`. -/
structure Burst where
  type : BurstType
  duration : Int
  remaining_time : Int
  io_device : String
deriving DecidableEq, Repr

/-- `Burst::Burst(BurstType, int, const std::string&)`. -/
def mkBurst (t : BurstType) (d : Int) (device : String) : Burst :=
  { type := t, duration := d, remaining_time := d, io_device := device }

/-- `Burst::is_completed`. -/
def Burst.is_completed (b : Burst) : Bool :=
  b.remaining_time ≤ 0

/-- `ProcessState` from `include/core/process.hpp`. -/
inductive ProcessState where
| NEW : ProcessState
| READY : ProcessState
| MEMORY_WAITING : ProcessState
| RUNNING : ProcessState
| WAITING : ProcessState
| TERMINATED : ProcessState
deriving DecidableEq, Repr

/-- `Page` from `include/memory/page.hpp`. -/
structure Page where
  page_id : Int
  frame_number : Int
  valid : Bool
  modified : Bool
  referenced : Bool
  last_access_time : Int
  process_id : Int
deriving DecidableEq, Repr

/-- `Page::Page(int id)`. -/
def mkPage (id : Int) : Page :=
  { page_id := id, frame_number := -1, valid := false, modified := false,
    referenced := false, last_access_time := 0, process_id := -1 }

/-- `Process` from `include/core/process.hpp`, without the thread, mutex and
condition-variable members (they have no effect on the simulated state) and
without the unused `memory_access_trace` draft fields. -/
structure Process where
  pid : Int
  name : String
  arrival_time : Int
  burst_time : Int
  remaining_time : Int
  completion_time : Int
  waiting_time : Int
  turnaround_time : Int
  response_time : Int
  start_time : Int
  priority : Int
  state : ProcessState
  first_execution : Bool
  last_execution_time : Int
  memory_required : Nat
  memory_base : Nat
  memory_allocated : Bool
  page_table : List Page
  page_faults : Int
  replacements : Int
  active_pages_count : Int
  burst_sequence : List Burst
  current_burst_index : Nat
  total_cpu_time : Int
  total_io_time : Int
deriving DecidableEq, Repr

/-- Sum of `duration` over the CPU bursts of a sequence (the accumulation
performed by the burst-list constructor of `Process`). -/
def sumCpuDurations (bs : List Burst) : Int :=
  (bs.filter (fun b => b.type == BurstType.cpu)).foldl (fun s b => s + b.duration) 0

/-- Sum of `duration` over the I/O bursts of a sequence. -/
def sumIoDurations (bs : List Burst) : Int :=
  (bs.filter (fun b => b.type == BurstType.io)).foldl (fun s b => s + b.duration) 0

/-- `Process::Process(int, const std::string&, int, const std::vector<Burst>&, int, uint32_t)`
from `src/core/process.cpp` lines 28-47: accumulates `total_cpu_time` and
`total_io_time` over the burst sequence and sets both `burst_time` and
`remaining_time` to `total_cpu_time`. -/
def mkProcess (p : Int) (n : String) (arrival : Int) (bursts : List Burst)
    (prio : Int) (mem : Nat) : Process :=
  { pid := p, name := n, arrival_time := arrival,
    burst_time := sumCpuDurations bursts,
    remaining_time := sumCpuDurations bursts,
    completion_time := 0, waiting_time := 0, turnaround_time := 0,
    response_time := -1, start_time := -1, priority := prio,
    state := ProcessState.NEW, first_execution := true,
    last_execution_time := 0, memory_required := mem,
    memory_base := 0, memory_allocated := false,
    page_table := [], page_faults := 0, replacements := 0,
    active_pages_count := 0, burst_sequence := bursts,
    current_burst_index := 0,
    total_cpu_time := sumCpuDurations bursts,
    total_io_time := sumIoDurations bursts }

/-- `Process::calculate_metrics` from `src/core/process.cpp` lines 68-74. -/
def Process.calculate_metrics (p : Process) : Process :=
  let p := { p with turnaround_time := p.completion_time - p.arrival_time }
  let p := { p with waiting_time := p.turnaround_time - p.burst_time }
  if p.start_time ≥ 0 then
    { p with response_time := p.start_time - p.arrival_time }
  else
    p

/-- `Process::has_arrived`. -/
def Process.has_arrived (p : Process) (current_time : Int) : Bool :=
  p.arrival_time ≤ current_time

/-- `Process::is_completed`. -/
def Process.is_completed (p : Process) : Bool :=
  p.current_burst_index ≥ p.burst_sequence.length &&
    (p.burst_sequence.isEmpty || p.remaining_time ≤ 0)

/-- `Process::has_more_bursts`. -/
def Process.has_more_bursts (p : Process) : Bool :=
  p.current_burst_index < p.burst_sequence.length

/-- `Process::get_current_burst` (null pointer becomes `none`). -/
def Process.get_current_burst (p : Process) : Option Burst :=
  p.burst_sequence.get? p.current_burst_index

/-- `Process::advance_to_next_burst`. -/
def Process.advance_to_next_burst (p : Process) : Process :=
  if p.current_burst_index < p.burst_sequence.length then
    { p with current_burst_index := p.current_burst_index + 1 }
  else
    p

/-- `Process::is_on_cpu_burst`. -/
def Process.is_on_cpu_burst (p : Process) : Bool :=
  match p.get_current_burst with
  | some b => b.type == BurstType.cpu
  | none => false

/-- `Process::is_on_io_burst`. -/
def Process.is_on_io_burst (p : Process) : Bool :=
  match p.get_current_burst with
  | some b => b.type == BurstType.io
  | none => false

/-- `Process::execute(int quantum, int current_time)` from
`src/core/process.cpp` lines 85-145; returns the time executed together with
the updated process record. -/
def Process.execute (p : Process) (quantum current_time : Int) : Int × Process :=
  if p.is_completed then
    (0, p)
  else
    let p :=
      if p.first_execution then
        { p with start_time := current_time,
                 response_time := current_time - p.arrival_time,
                 first_execution := false }
      else p
    if p.burst_sequence.isEmpty then
      let time_executed := if quantum > 0 then min quantum p.remaining_time else p.remaining_time
      let p := { p with remaining_time := p.remaining_time - time_executed,
                        last_execution_time := current_time + time_executed }
      if p.is_completed then
        (time_executed, { p with completion_time := current_time + time_executed,
                                 state := ProcessState.TERMINATED })
      else
        (time_executed, p)
    else
      match p.burst_sequence.get? p.current_burst_index with
      | none => (0, p)
      | some current_burst =>
        let time_executed :=
          if quantum > 0 then min quantum current_burst.remaining_time
          else current_burst.remaining_time
        let burst := { current_burst with remaining_time := current_burst.remaining_time - time_executed }
        let p := { p with burst_sequence := p.burst_sequence.set p.current_burst_index burst,
                          remaining_time := p.remaining_time - time_executed,
                          last_execution_time := current_time + time_executed }
        if burst.is_completed then
          let p := { p with current_burst_index := p.current_burst_index + 1 }
          if p.is_completed then
            (time_executed, { p with completion_time := current_time + time_executed,
                                     state := ProcessState.TERMINATED })
          else
            (time_executed, p)
        else
          (time_executed, p)

/-! ### SJF ready queue (`src/cpu/sjf_scheduler.cpp`) -/

/-- The strict comparator passed to `std::sort` in `SJFScheduler::add_process`
(`src/cpu/sjf_scheduler.cpp` lines 8-14): ascending `remaining_time` of the
process, ties broken by `arrival_time`. -/
def sjfLt (a b : Process) : Bool :=
  if a.remaining_time == b.remaining_time then
    a.arrival_time < b.arrival_time
  else
    a.remaining_time < b.remaining_time

/-- The non-strict order induced by `sjfLt` (`sjfLe a b = ¬ sjfLt b a`); a
conforming `std::sort` leaves the queue `Pairwise sjfLe`. -/
def sjfLe (a b : Process) : Bool :=
  ! sjfLt b a

/-- `SJFScheduler::add_process`: `push_back` followed by `std::sort` with
`sjfLt`.  `std::sort` is embedded as `insertionSort` on the induced total
preorder `sjfLe`; the theorems below use only sortedness and permutation,
which hold for any conforming `std::sort` run. -/
def sjfAddProcess (ready_queue : List Process) (process : Process) : List Process :=
  (ready_queue ++ [process]).insertionSort (fun a b => sjfLe a b = true)

/-- `SJFScheduler::get_next_process`: the front of the queue, `none` when
empty. -/
def sjfGetNextProcess (ready_queue : List Process) : Option Process :=
  ready_queue.head?

/-- The ordering key the claim (spec §4.2) attributes to SJF: ascending
`remaining_duration` of the *current* burst at insertion, ties broken by
arrival tick, then by PID.  Stated from the spec's words, for comparison
with the source comparator `sjfLt`. -/
def sjfClaimLe (a b : Process) : Bool :=
  let ra := (a.get_current_burst.map Burst.remaining_time).getD 0
  let rb := (b.get_current_burst.map Burst.remaining_time).getD 0
  if ra == rb then
    if a.arrival_time == b.arrival_time then a.pid ≤ b.pid
    else a.arrival_time < b.arrival_time
  else ra < rb

/-! ### Frames and the LRU replacement policy
(`include/memory/replacement_algorithm.hpp`, `src/memory/lru_replacement.cpp`) -/

/-- `Frame` from `include/memory/replacement_algorithm.hpp`. -/
structure Frame where
  frame_id : Int
  process_id : Int
  page_id : Int
  occupied : Bool
deriving DecidableEq, Repr

/-- `process_map.find(pid)` on the registry of processes (an
`unordered_map<int, shared_ptr<Process>>` keyed by unique `pid`). -/
def findProc (process_map : List Process) (pid : Int) : Option Process :=
  process_map.find? (fun p => p.pid == pid)

/-- `std::numeric_limits<int>::max()`. -/
def intMax : Int := 2147483647

/-- Reading `it->second->page_table[frame.page_id]` in
`LRUReplacement::select_victim`: the indexing in the source is unchecked
(`operator[]` on a vector); an out-of-range access, undefined in C++, is
totalised with a default `Page`. -/
def framePage (process_map : List Process) (f : Frame) : Option Page :=
  (findProc process_map f.process_id).map (fun p => (p.page_table.getD f.page_id.toNat (mkPage (-1))))

/-- The scan loop of `LRUReplacement::select_victim`
(`src/memory/lru_replacement.cpp` lines 13-24), threading the
`(victim, min_time)` accumulator. -/
def lruScan (process_map : List Process) : List Frame → Int × Int → Int × Int
| [], acc => acc
| f :: rest, (victim, min_time) =>
  if f.occupied then
    match findProc process_map f.process_id with
    | some p =>
      let page := p.page_table.getD f.page_id.toNat (mkPage (-1))
      if page.last_access_time < min_time then
        lruScan process_map rest (f.frame_id, page.last_access_time)
      else
        lruScan process_map rest (victim, min_time)
    | none => lruScan process_map rest (victim, min_time)
  else
    lruScan process_map rest (victim, min_time)

/-- `LRUReplacement::select_victim` from `src/memory/lru_replacement.cpp`:
scans every occupied frame whose owner is registered, keeps the minimum
`last_access_time`, and falls back to frame `0` when no candidate was
found. -/
def lruSelectVictim (frames : List Frame) (process_map : List Process)
    (_current_time : Int) : Int :=
  let scanned := lruScan process_map frames (-1, intMax)
  if scanned.1 ≠ -1 then scanned.1 else 0

/-! ### Memory manager (`src/memory/memory_manager.cpp`)

Processes are shared (`shared_ptr`) between the scheduler, the memory
manager and the I/O subsystem; the embedding stores them once in an arena
(`List Process`, unique pids) and every other component keeps pids.  The
`process_map` registry of the memory manager is therefore a list of
registered pids; reads and writes through a map entry go to the arena. -/

/-- `process_map.find` / dereference of a stored `shared_ptr`: lookup in
the arena by pid (`none` models a null pointer). -/
def arenaFind (arena : List Process) (pid : Int) : Option Process :=
  arena.find? (fun p => p.pid == pid)

/-- Mutation through a `shared_ptr<Process>`: update the arena entry with
that pid. -/
def arenaUpdate (arena : List Process) (pid : Int) (f : Process → Process) : List Process :=
  arena.map (fun p => if p.pid == pid then f p else p)

/-- `unordered_set<int>::insert`. -/
def insertPid (l : List Int) (pid : Int) : List Int :=
  if l.contains pid then l else l ++ [pid]

/-- `unordered_set<int>::erase`. -/
def erasePid (l : List Int) (pid : Int) : List Int :=
  l.filter (fun x => x != pid)

/-- Value of `pending_pages_by_process[pid]` (empty set when absent). -/
def pendingGet (m : List (Int × List Int)) (pid : Int) : List Int :=
  ((m.find? (fun e => e.1 == pid)).map Prod.snd).getD []

/-- Assignment to `pending_pages_by_process[pid]` (creates the entry when
absent, as `operator[]` does). -/
def pendingSet (m : List (Int × List Int)) (pid : Int) (s : List Int) : List (Int × List Int) :=
  if (m.find? (fun e => e.1 == pid)).isSome then
    m.map (fun e => if e.1 == pid then (pid, s) else e)
  else
    m ++ [(pid, s)]

/-- The `ReplacementAlgorithm` interface
(`include/memory/replacement_algorithm.hpp`) with explicit policy state. -/
structure Policy (π : Type) where
  select_victim : π → List Frame → List Process → Int → Int
  on_page_access : π → Int → π
  on_frame_release : π → Int → π

/-- `LRUReplacement` as a `Policy` (it keeps no state and overrides neither
notification hook). -/
def lruPolicy : Policy Unit :=
  { select_victim := fun _ frames pm t => lruSelectVictim frames pm t,
    on_page_access := fun s _ => s,
    on_frame_release := fun s _ => s }

/-- `MemoryManager::PageLoadTask`; the `shared_ptr<Process> process` member
is the owner's pid (tasks are only ever built with a non-null process). -/
structure PageLoadTask where
  pid : Int
  page_id : Int
  remaining_time : Int
  frame_id : Int
  enqueue_time : Int
deriving DecidableEq, Repr

/-- The state of `MemoryManager` (policy state is carried separately). -/
structure MMState where
  total_frames : Int
  page_fault_latency : Int
  frames : List Frame
  process_map : List Int
  fault_queue : List PageLoadTask
  active_task : Option PageLoadTask
  pending_pages_by_process : List (Int × List Int)
  processes_waiting_on_memory : List Int
  memory_time : Int
  total_page_faults : Int
  total_replacements : Int
deriving DecidableEq, Repr

/-- `MemoryManager::MemoryManager`. -/
def mkMemoryManager (total_frames : Int) (page_fault_latency : Int) : MMState :=
  { total_frames := total_frames,
    page_fault_latency := max 1 page_fault_latency,
    frames := (List.range total_frames.toNat).map
      (fun i => { frame_id := Int.ofNat i, process_id := -1, page_id := -1, occupied := false }),
    process_map := [], fault_queue := [], active_task := none,
    pending_pages_by_process := [], processes_waiting_on_memory := [],
    memory_time := 0, total_page_faults := 0, total_replacements := 0 }

/-- Placeholder frame used to totalise unchecked `frames[i]` indexing. -/
def defaultFrame : Frame :=
  { frame_id := -1, process_id := -1, page_id := -1, occupied := false }

/-- In-place mutation of `frames[idx]`. -/
def updateFrame (frames : List Frame) (idx : Nat) (f : Frame → Frame) : List Frame :=
  match frames.get? idx with
  | some fr => frames.set idx (f fr)
  | none => frames

/-- The view of `process_map` handed to `select_victim`: the registered
processes. -/
def registeredProcs (mm : MMState) (arena : List Process) : List Process :=
  arena.filter (fun p => mm.process_map.contains p.pid)

/-- `MemoryManager::register_process`. -/
def registerProcess (mm : MMState) (pid : Int) : MMState :=
  { mm with process_map := insertPid mm.process_map pid }

/-- `MemoryManager::allocate_initial_memory`: resizes the page table to
`memory_required` entries and initialises every entry to `Page(i)` owned by
the process. -/
def allocateInitialMemory (p : Process) : Process :=
  let pt := (List.range p.memory_required).map
    (fun i => { mkPage (Int.ofNat i) with process_id := p.pid })
  { p with page_table := pt }

/-- `MemoryManager::are_all_pages_resident`
(`src/memory/memory_manager.cpp` lines 161-171). -/
def areAllPagesResident (p : Process) : Bool :=
  if p.page_table.isEmpty then true
  else p.page_table.all (fun page => page.valid)

/-- `MemoryManager::set_process_pages_referenced`: a no-op when the pid is
not registered, otherwise sets `referenced` on every valid page. -/
def setProcessPagesReferenced (mm : MMState) (arena : List Process) (pid : Int)
    (referenced : Bool) : List Process :=
  if mm.process_map.contains pid then
    arenaUpdate arena pid (fun p =>
      let pt := p.page_table.map
        (fun pg => if pg.valid then { pg with referenced := referenced } else pg)
      { p with page_table := pt })
  else arena

/-- `MemoryManager::find_free_frame`: index of the first unoccupied frame,
`-1` when none (the source indexes `frames[i]` for `i < total_frames`;
reachable states have `frames.length = total_frames`). -/
def findFreeFrame (mm : MMState) : Int :=
  match mm.frames.findIdx? (fun f => ! f.occupied) with
  | some i => Int.ofNat i
  | none => -1

/-- The loop body of `MemoryManager::enqueue_missing_pages`: record the
pending page, append the page-load task, count the fault globally and on
the process. -/
def enqueueOne (pid current_time : Int) (acc : MMState × List Process)
    (page_id : Int) : MMState × List Process :=
  let mm := acc.1
  let arena := acc.2
  let pend := pendingSet mm.pending_pages_by_process pid
    (insertPid (pendingGet mm.pending_pages_by_process pid) page_id)
  let mm := { mm with pending_pages_by_process := pend }
  let task : PageLoadTask :=
    { pid := pid, page_id := page_id, remaining_time := mm.page_fault_latency,
      frame_id := -1, enqueue_time := current_time }
  let mm := { mm with fault_queue := mm.fault_queue ++ [task],
                      total_page_faults := mm.total_page_faults + 1 }
  let arena := arenaUpdate arena pid (fun p => { p with page_faults := p.page_faults + 1 })
  (mm, arena)

/-- `MemoryManager::enqueue_missing_pages`
(`src/memory/memory_manager.cpp` lines 173-184). -/
def enqueueMissingPages (mm : MMState) (arena : List Process) (pid : Int)
    (missing_pages : List Int) (current_time : Int) : MMState × List Process :=
  missing_pages.foldl (enqueueOne pid current_time) (mm, arena)

/-- `MemoryManager::prepare_process_for_cpu`
(`src/memory/memory_manager.cpp` lines 71-101). -/
def prepareProcessForCpu (mm : MMState) (arena : List Process) (pid : Int)
    (current_time : Int) : Bool × MMState × List Process :=
  match arenaFind arena pid with
  | none => (false, mm, arena)
  | some p0 =>
    let p := if p0.page_table.isEmpty then allocateInitialMemory p0 else p0
    let arena := if p0.page_table.isEmpty then arenaUpdate arena pid (fun _ => p) else arena
    if areAllPagesResident p then
      let arena := setProcessPagesReferenced mm arena pid true
      let waiting := erasePid mm.processes_waiting_on_memory pid
      let mm := { mm with processes_waiting_on_memory := waiting }
      (true, mm, arena)
    else
      let mm :=
        if (mm.pending_pages_by_process.find? (fun e => e.1 == pid)).isSome then mm
        else { mm with pending_pages_by_process := mm.pending_pages_by_process ++ [(pid, [])] }
      let pending := pendingGet mm.pending_pages_by_process pid
      let missing := (p.page_table.filter
        (fun page => !page.valid && !pending.contains page.page_id)).map (fun page => page.page_id)
      let next := if !missing.isEmpty then enqueueMissingPages mm arena pid missing current_time
                  else (mm, arena)
      let mm := next.1
      let arena := next.2
      let waiting := insertPid mm.processes_waiting_on_memory pid
      let mm := { mm with processes_waiting_on_memory := waiting }
      (false, mm, arena)

/-- `MemoryManager::evict_frame`
(`src/memory/memory_manager.cpp` lines 240-271).  The victim process is
read and written through the registry's `shared_ptr`, i.e. the arena entry
of the registered pid. -/
def evictFrame {π : Type} (pol : Policy π) (ps : π) (mm : MMState)
    (arena : List Process) (frame_idx : Int) : MMState × List Process × π :=
  if frame_idx < 0 ∨ frame_idx ≥ mm.total_frames then (mm, arena, ps)
  else
    let idx := frame_idx.toNat
    let frame := mm.frames.getD idx defaultFrame
    let step : MMState × List Process :=
      if frame.process_id ≠ -1 ∧ mm.process_map.contains frame.process_id then
        match arenaFind arena frame.process_id with
        | some victim_proc =>
          let arena :=
            if 0 ≤ frame.page_id ∧ frame.page_id < (victim_proc.page_table.length : Int) then
              arenaUpdate arena frame.process_id (fun p =>
                match p.page_table.get? frame.page_id.toNat with
                | some victim_page =>
                  if victim_page.valid then
                    let pt := p.page_table.set frame.page_id.toNat
                      { victim_page with valid := false, frame_number := -1 }
                    { p with page_table := pt,
                             active_pages_count := max 0 (p.active_pages_count - 1) }
                  else p
                | none => p)
            else arena
          let arena := arenaUpdate arena frame.process_id
            (fun p => { p with replacements := p.replacements + 1 })
          ({ mm with total_replacements := mm.total_replacements + 1 }, arena)
        | none => (mm, arena)
      else (mm, arena)
    let mm := step.1
    let arena := step.2
    let ps := pol.on_frame_release ps frame_idx
    let frames := updateFrame mm.frames idx
      (fun fr => { fr with process_id := -1, page_id := -1, occupied := false })
    let mm := { mm with frames := frames }
    (mm, arena, ps)

/-- `MemoryManager::reserve_frame_for_task`
(`src/memory/memory_manager.cpp` lines 200-238).  Returns the success flag,
the mutated states and the task (whose `frame_id` is set on success). -/
def reserveFrameForTask {π : Type} (pol : Policy π) (ps : π) (mm : MMState)
    (arena : List Process) (task : PageLoadTask) :
    Bool × MMState × List Process × π × PageLoadTask :=
  let assign : MMState → List Process → π → Int →
      Bool × MMState × List Process × π × PageLoadTask :=
    fun mm arena ps frame_idx =>
      let idx := frame_idx.toNat
      let frames := updateFrame mm.frames idx
        (fun fr => { fr with occupied := true, process_id := task.pid, page_id := task.page_id })
      let mm := { mm with frames := frames }
      (true, mm, arena, ps, { task with frame_id := frame_idx })
  let free := findFreeFrame mm
  if free = -1 then
    let v := pol.select_victim ps mm.frames (registeredProcs mm arena) mm.memory_time
    if v ≠ -1 then
      if v < 0 ∨ v ≥ mm.total_frames then (false, mm, arena, ps, task)
      else
        let frame := mm.frames.getD v.toNat defaultFrame
        if frame.occupied then
          if mm.process_map.contains frame.process_id then
            let pinned :=
              match arenaFind arena frame.process_id with
              | some victim_proc =>
                if 0 ≤ frame.page_id ∧ frame.page_id < (victim_proc.page_table.length : Int) then
                  (victim_proc.page_table.getD frame.page_id.toNat (mkPage (-1))).referenced
                else false
              | none => false
            if pinned then (false, mm, arena, ps, task)
            else
              let ev := evictFrame pol ps mm arena v
              assign ev.1 ev.2.1 ev.2.2 v
          else
            let ev := evictFrame pol ps mm arena v
            assign ev.1 ev.2.1 ev.2.2 v
        else
          assign mm arena ps v
    else (false, mm, arena, ps, task)
  else
    assign mm arena ps free

/-- `MemoryManager::start_next_task_if_possible`
(`src/memory/memory_manager.cpp` lines 186-198). -/
def startNextTaskIfPossible {π : Type} (pol : Policy π) (ps : π) (mm : MMState)
    (arena : List Process) (current_time : Int) : MMState × List Process × π :=
  if mm.active_task.isSome || mm.fault_queue.isEmpty then (mm, arena, ps)
  else
    match mm.fault_queue with
    | [] => (mm, arena, ps)
    | task :: rest =>
      let r := reserveFrameForTask pol ps mm arena task
      let ok := r.1
      let mm := r.2.1
      let arena := r.2.2.1
      let ps := r.2.2.2.1
      let task := r.2.2.2.2
      if !ok then (mm, arena, ps)
      else
        let task := { task with remaining_time := mm.page_fault_latency,
                                enqueue_time := current_time }
        ({ mm with active_task := some task, fault_queue := rest }, arena, ps)

/-- `MemoryManager::complete_active_task`
(`src/memory/memory_manager.cpp` lines 273-318); the returned pid is the
process reported ready (all pages resident), mirroring the returned
`shared_ptr`. -/
def completeActiveTask {π : Type} (pol : Policy π) (ps : π) (mm : MMState)
    (arena : List Process) (completion_time : Int) :
    MMState × List Process × π × Option Int :=
  match mm.active_task with
  | none => (mm, arena, ps, none)
  | some task =>
    match arenaFind arena task.pid with
    | none => (mm, arena, ps, none)
    | some _ =>
      let pid := task.pid
      let page_id := task.page_id
      let frame_id := task.frame_id
      let mm :=
        match mm.pending_pages_by_process.find? (fun e => e.1 == pid) with
        | some e =>
          let s := e.2.filter (fun x => x != page_id)
          if s.isEmpty then
            let pend := mm.pending_pages_by_process.filter (fun e2 => e2.1 != pid)
            { mm with pending_pages_by_process := pend }
          else
            let pend := mm.pending_pages_by_process.map
              (fun e2 => if e2.1 == pid then (pid, s) else e2)
            { mm with pending_pages_by_process := pend }
        | none => mm
      let mm :=
        if 0 ≤ frame_id ∧ frame_id < mm.total_frames then
          let frames := updateFrame mm.frames frame_id.toNat
            (fun fr => { fr with process_id := pid, page_id := page_id, occupied := true })
          { mm with frames := frames }
        else mm
      let arena := arenaUpdate arena pid (fun p =>
        if 0 ≤ page_id ∧ page_id < (p.page_table.length : Int) then
          match p.page_table.get? page_id.toNat with
          | some page =>
            let pt := p.page_table.set page_id.toNat
              { page with valid := true, frame_number := frame_id,
                          referenced := true, last_access_time := completion_time }
            { p with page_table := pt,
                     active_pages_count := p.active_pages_count + 1 }
          | none => p
        else p)
      let ps := if frame_id ≥ 0 then pol.on_page_access ps frame_id else ps
      match arenaFind arena pid with
      | some p2 =>
        if areAllPagesResident p2 then
          let waiting := erasePid mm.processes_waiting_on_memory pid
          let mm := { mm with processes_waiting_on_memory := waiting }
          let arena := setProcessPagesReferenced mm arena pid true
          (mm, arena, ps, some pid)
        else (mm, arena, ps, none)
      | none => (mm, arena, ps, none)

/-- The body of one iteration of the loop in
`MemoryManager::advance_fault_queue` (`src/memory/memory_manager.cpp`
lines 107-139); the returned pid is the process collected in
`ready_processes` for which the ready callback fires after the lock is
dropped. -/
def mmSubTick {π : Type} (pol : Policy π) (ps : π) (mm : MMState)
    (arena : List Process) (tick_time : Int) :
    MMState × List Process × π × Option Int :=
  let mm := { mm with memory_time := tick_time }
  let first :=
    if mm.active_task.isNone then startNextTaskIfPossible pol ps mm arena tick_time
    else (mm, arena, ps)
  let mm := first.1
  let arena := first.2.1
  let ps := first.2.2
  match mm.active_task with
  | none =>
    let last := startNextTaskIfPossible pol ps mm arena tick_time
    (last.1, last.2.1, last.2.2, none)
  | some task =>
    let task := { task with remaining_time := task.remaining_time - 1 }
    let mm := { mm with active_task := some task }
    if task.remaining_time ≤ 0 then
      let c := completeActiveTask pol ps mm arena tick_time
      let mm := { c.1 with active_task := none }
      let arena := c.2.1
      let ps := c.2.2.1
      let ready := c.2.2.2
      let last := startNextTaskIfPossible pol ps mm arena tick_time
      (last.1, last.2.1, last.2.2, ready)
    else
      (mm, arena, ps, none)

/-- `MemoryManager::unregister_process`
(`src/memory/memory_manager.cpp` lines 27-54); also the body of
`release_process_memory`. -/
def unregisterProcess {π : Type} (pol : Policy π) (ps : π) (mm : MMState)
    (pid : Int) : MMState × π :=
  let mm := { mm with
    process_map := erasePid mm.process_map pid,
    pending_pages_by_process := mm.pending_pages_by_process.filter (fun e => e.1 != pid),
    processes_waiting_on_memory := erasePid mm.processes_waiting_on_memory pid }
  let mm := { mm with fault_queue := mm.fault_queue.filter (fun t => !(t.pid == pid)) }
  let mm :=
    match mm.active_task with
    | some t => if t.pid == pid then { mm with active_task := none } else mm
    | none => mm
  let freed := mm.frames.foldl
    (fun (acc : List Frame × π) fr =>
      if fr.process_id == pid then
        (acc.1 ++ [{ fr with process_id := -1, page_id := -1, occupied := false }],
         pol.on_frame_release acc.2 fr.frame_id)
      else (acc.1 ++ [fr], acc.2))
    ([], ps)
  ({ mm with frames := freed.1 }, freed.2)

/-- `MemoryManager::mark_process_inactive`. -/
def markProcessInactive (mm : MMState) (arena : List Process) (pid : Int) : List Process :=
  setProcessPagesReferenced mm arena pid false

/-! ### I/O requests and devices
(`src/io/io_request.cpp`, `src/io/io_device.cpp`,
`src/io/io_fcfs_scheduler.cpp`, `src/io/io_round_robin_scheduler.cpp`) -/

/-- `IOSchedulingAlgorithm` from `include/io/io_scheduler.hpp`. -/
inductive IOSchedulingAlgorithm where
| FCFS : IOSchedulingAlgorithm
| SJF : IOSchedulingAlgorithm
| ROUND_ROBIN : IOSchedulingAlgorithm
| PRIORITY : IOSchedulingAlgorithm
deriving DecidableEq, Repr

/-- `IORequest` (`include/io/io_request.hpp`); the `shared_ptr<Process>`
member is the owner's pid. -/
structure IORequest where
  pid : Int
  burst : Burst
  arrival_time : Int
  completion_time : Int
  start_time : Int
  priority : Int
deriving DecidableEq, Repr

/-- `IORequest::IORequest(proc, burst, arrival, prio = 0)`. -/
def mkIORequest (pid : Int) (b : Burst) (arrival : Int) : IORequest :=
  { pid := pid, burst := b, arrival_time := arrival, completion_time := 0,
    start_time := -1, priority := 0 }

/-- `IORequest::is_completed`. -/
def IORequest.is_completed (r : IORequest) : Bool :=
  r.burst.is_completed

/-- `IORequest::execute` from `src/io/io_request.cpp` lines 16-30. -/
def IORequest.execute (r : IORequest) (quantum current_time : Int) : Int × IORequest :=
  let r := if r.start_time < 0 then { r with start_time := current_time } else r
  let time_executed :=
    if quantum > 0 then min quantum r.burst.remaining_time else r.burst.remaining_time
  let r := { r with burst :=
    { r.burst with remaining_time := r.burst.remaining_time - time_executed } }
  let r :=
    if r.is_completed then { r with completion_time := current_time + time_executed }
    else r
  (time_executed, r)

/-- `IODevice` (`include/io/io_device.hpp`).  The per-device `IOScheduler`
(FCFS or Round-Robin, both a FIFO deque — see the two `add_request`/
`get_next_request` implementations) is inlined as `alg` plus `queue`;
`io_quantum` is the Round-Robin scheduler's quantum (never consulted by
`execute_step`). -/
structure IODevice where
  device_name : String
  alg : IOSchedulingAlgorithm
  io_quantum : Int
  queue : List IORequest
  current_request : Option IORequest
  total_io_time : Int
  device_switches : Int
  total_requests_completed : Int
  last_event_was_completed : Bool
deriving DecidableEq, Repr

/-- `IODevice::IODevice(name)` with a scheduler installed. -/
def mkIODevice (name : String) (alg : IOSchedulingAlgorithm) (io_quantum : Int) : IODevice :=
  { device_name := name, alg := alg, io_quantum := io_quantum, queue := [],
    current_request := none, total_io_time := 0, device_switches := 0,
    total_requests_completed := 0, last_event_was_completed := false }

/-- `IODevice::has_pending_requests`. -/
def IODevice.has_pending_requests (d : IODevice) : Bool :=
  !d.queue.isEmpty || d.current_request.isSome

/-- `IODevice::execute_step` from `src/io/io_device.cpp` lines 33-74.
Returns the updated device and, when the active request completed, the
`(pid, current_time + time_executed)` pair handed to the completion
callback (the caller applies the callback; it touches no device state). -/
def IODevice.execute_step (dev : IODevice) (quantum current_time : Int) :
    IODevice × Option (Int × Int) :=
  if dev.queue.isEmpty && dev.current_request.isNone then (dev, none)
  else
    let picked : IODevice × Option IORequest :=
      match dev.current_request with
      | some r => (dev, some r)
      | none =>
        match dev.queue with
        | [] => (dev, none)
        | r :: rest =>
          ({ dev with queue := rest, current_request := some r,
                      device_switches := dev.device_switches + 1 }, some r)
    match picked.2 with
    | none => (picked.1, none)
    | some r =>
      let dev := picked.1
      let e := r.execute quantum current_time
      let time_executed := e.1
      let r := e.2
      let dev := { dev with total_io_time := dev.total_io_time + time_executed,
                            last_event_was_completed := r.is_completed }
      if r.is_completed then
        let dev := { dev with total_requests_completed := dev.total_requests_completed + 1,
                              current_request := none }
        (dev, some (r.pid, current_time + time_executed))
      else if dev.alg = IOSchedulingAlgorithm.ROUND_ROBIN then
        ({ dev with queue := dev.queue ++ [r], current_request := none }, none)
      else
        ({ dev with current_request := some r }, none)

/-- One record of `MetricsCollector::log_io`
(the process name is omitted; it is cosmetic). -/
structure IoEvent where
  tick : Int
  device : String
  event : String
  pid : Int
  remaining : Int
  queue : Nat
deriving DecidableEq, Repr

/-- `IODevice::send_log_metrics` from `src/io/io_device.cpp` lines 104-147:
emits one I/O record and clears `last_event_was_completed`. -/
def IODevice.send_log_metrics (dev : IODevice) (current_time : Int) :
    IODevice × IoEvent :=
  let queue_size := dev.queue.length
  let rec_ : String × Int × Int :=
    if dev.current_request.isNone && queue_size == 0 then ("IDLE", -1, 0)
    else if dev.last_event_was_completed then
      match dev.current_request with
      | some r => ("COMPLETED", r.pid, 0)
      | none => ("COMPLETED", -1, 0)
    else
      match dev.current_request with
      | some r => ("STEP", r.pid, r.burst.remaining_time)
      | none => ("IDLE", -1, 0)
  ({ dev with last_event_was_completed := false },
   { tick := current_time, device := dev.device_name, event := rec_.1,
     pid := rec_.2.1, remaining := rec_.2.2, queue := queue_size })

/-- `IODevice::add_io_request` (the scheduler's `add_request` is
`push_back` for both FCFS and Round-Robin). -/
def IODevice.add_io_request (dev : IODevice) (r : IORequest) : IODevice :=
  { dev with queue := dev.queue ++ [r] }

/-! ### CPU scheduler (`src/cpu/cpu_scheduler.cpp`)

`CSState` bundles the `CPUScheduler` members with its collaborators: the
arena of all processes (`all_processes`), the installed ready-queue policy
(tag plus pid queue), the `MemoryManager`, the replacement-policy state,
the `IOManager`'s device map (in ascending-name order, as `std::map`
iterates) and the metrics trace (the collector is modelled as enabled).
The per-process worker threads only sleep and flip `step_complete`:
`notify_process_running` is the `state := RUNNING` write and
`wait_for_process_step` has no further observable effect. -/

/-- `SchedulingAlgorithm` from `include/cpu/scheduler.hpp`. -/
inductive SchedulingAlgorithm where
| FCFS : SchedulingAlgorithm
| SJF : SchedulingAlgorithm
| ROUND_ROBIN : SchedulingAlgorithm
| PRIORITY : SchedulingAlgorithm
deriving DecidableEq, Repr

/-- The strict comparator of `PriorityScheduler::add_process`
(`src/cpu/priority_scheduler.cpp` lines 8-14). -/
def prLt (a b : Process) : Bool :=
  if a.priority == b.priority then a.arrival_time < b.arrival_time
  else a.priority < b.priority

/-- Non-strict order induced by `prLt`. -/
def prLe (a b : Process) : Bool :=
  ! prLt b a

/-- A process used to totalise arena lookups that cannot fail in reachable
states (every queued pid is in `all_processes`). -/
def defaultProcess : Process :=
  mkProcess (-1) "" 0 [] 0 0

/-- Dereference of a queued `shared_ptr<Process>` for comparator use. -/
def lookupProc (arena : List Process) (pid : Int) : Process :=
  (arenaFind arena pid).getD defaultProcess

/-- `Scheduler::add_process` of the installed policy: FCFS and Round-Robin
`push_back`; SJF and Priority `push_back` then `std::sort` the whole queue
with their comparator over the processes' current field values. -/
def schedAdd (alg : SchedulingAlgorithm) (arena : List Process)
    (q : List Int) (pid : Int) : List Int :=
  match alg with
  | SchedulingAlgorithm.FCFS => q ++ [pid]
  | SchedulingAlgorithm.ROUND_ROBIN => q ++ [pid]
  | SchedulingAlgorithm.SJF =>
    (q ++ [pid]).insertionSort
      (fun a b => sjfLe (lookupProc arena a) (lookupProc arena b) = true)
  | SchedulingAlgorithm.PRIORITY =>
    (q ++ [pid]).insertionSort
      (fun a b => prLe (lookupProc arena a) (lookupProc arena b) = true)

/-- `Scheduler::remove_process`: erase the first queue entry with the pid
(all four policies). -/
def schedRemove (q : List Int) (pid : Int) : List Int :=
  q.eraseP (fun x => x == pid)

/-- One record of `MetricsCollector::log_cpu`. -/
structure CpuEvent where
  tick : Int
  event : String
  pid : Int
  name : String
  remaining : Int
  ready_queue : Nat
  context_switch : Bool
deriving DecidableEq, Repr

/-- The abort diagnostic (tick, pid) the specification prescribes for
runtime invariant violations; the source never produces it, so every path
of `execStep` returns `Except.ok`. -/
inductive StepErr where
| fatal : Int → Int → StepErr
deriving DecidableEq, Repr

/-- The linked state of `CPUScheduler`, its memory manager (plus policy
state `π`), its I/O manager and the metrics trace. -/
structure CSState (π : Type) where
  procs : List Process
  alg : SchedulingAlgorithm
  ready_queue : List Int
  current_time : Int
  context_switches : Int
  running_process : Option Int
  pending_preemption : Bool
  total_cpu_time : Int
  last_tick_was_idle : Bool
  completed : List Int
  mm : MMState
  ps : π
  devices : List IODevice
  cpu_events : List CpuEvent
  io_events : List IoEvent
deriving DecidableEq

/-- Mutation through a `shared_ptr<Process>` seen from the scheduler. -/
def csUpdateProc {π : Type} (s : CSState π) (pid : Int) (f : Process → Process) : CSState π :=
  { s with procs := arenaUpdate s.procs pid f }

/-- `CPUScheduler::has_pending_processes`. -/
def hasPendingProcesses {π : Type} (s : CSState π) : Bool :=
  s.procs.any (fun p => p.state != ProcessState.TERMINATED)

/-- `CPUScheduler::send_cpu_metrics` (collector enabled): `remaining` is
the current burst's remaining time when it is a CPU burst. -/
def csLog {π : Type} (s : CSState π) (event : String) (proc : Option Process)
    (context_switch : Bool) : CSState π :=
  let pid := match proc with | some p => p.pid | none => -1
  let name := match proc with | some p => p.name | none => ""
  let remaining :=
    match proc with
    | some p =>
      match p.get_current_burst with
      | some b => if b.type == BurstType.cpu then b.remaining_time else 0
      | none => 0
    | none => 0
  let ev : CpuEvent :=
    { tick := s.current_time, event := event, pid := pid, name := name,
      remaining := remaining, ready_queue := s.ready_queue.length,
      context_switch := context_switch }
  { s with cpu_events := s.cpu_events ++ [ev] }

/-- `CPUScheduler::request_preemption_if_needed` together with
`should_preempt_priority`. -/
def requestPreemptionIfNeeded {π : Type} (s : CSState π) (pid : Int) : CSState π :=
  match s.running_process with
  | none => s
  | some rp =>
    match s.alg with
    | SchedulingAlgorithm.ROUND_ROBIN => { s with pending_preemption := true }
    | SchedulingAlgorithm.PRIORITY =>
      match arenaFind s.procs pid, arenaFind s.procs rp with
      | some cand, some run =>
        if cand.priority < run.priority then { s with pending_preemption := true } else s
      | _, _ => s
    | _ => s

/-- `CPUScheduler::handle_io_completion`
(`src/cpu/cpu_scheduler.cpp` lines 386-413). -/
def handleIoCompletion {π : Type} (s : CSState π) (pid : Int)
    (completion_time : Int) : CSState π :=
  match arenaFind s.procs pid with
  | none => s
  | some proc =>
    let proc :=
      match proc.get_current_burst with
      | some b =>
        if b.type == BurstType.io then
          let bs := proc.burst_sequence.set proc.current_burst_index
            { b with remaining_time := 0 }
          { proc with burst_sequence := bs }
        else proc
      | none => proc
    let proc := proc.advance_to_next_burst
    if proc.is_completed then
      let proc := { proc with completion_time := completion_time }
      let proc := proc.calculate_metrics
      let proc := { proc with state := ProcessState.TERMINATED }
      { s with procs := arenaUpdate s.procs pid (fun _ => proc),
               completed := s.completed ++ [pid] }
    else
      let proc := { proc with state := ProcessState.READY }
      let s := { s with procs := arenaUpdate s.procs pid (fun _ => proc) }
      let s := { s with ready_queue := schedAdd s.alg s.procs s.ready_queue pid }
      requestPreemptionIfNeeded s pid

/-- `CPUScheduler::handle_memory_ready`
(`src/cpu/cpu_scheduler.cpp` lines 415-427). -/
def handleMemoryReady {π : Type} (s : CSState π) (pid : Int) : CSState π :=
  match arenaFind s.procs pid with
  | none => s
  | some proc =>
    if proc.state = ProcessState.TERMINATED then s
    else
      let s := csUpdateProc s pid (fun p => { p with state := ProcessState.READY })
      let s := { s with ready_queue := schedRemove s.ready_queue pid }
      let s := { s with ready_queue := schedAdd s.alg s.procs s.ready_queue pid }
      requestPreemptionIfNeeded s pid

/-- One iteration of the loop of `MemoryManager::advance_fault_queue`:
one memory sub-tick followed by the ready callback (`handle_memory_ready`)
when a process became resident. -/
def faultStep {π : Type} (pol : Policy π) (tick_time : Int) (s : CSState π) : CSState π :=
  let sub := mmSubTick pol s.ps s.mm s.procs tick_time
  let s := { s with mm := sub.1, procs := sub.2.1, ps := sub.2.2.1 }
  match sub.2.2.2 with
  | some pid => handleMemoryReady s pid
  | none => s

/-- The loop of `MemoryManager::advance_fault_queue` over `duration`
sub-ticks. -/
def advanceFaultQueueLoop {π : Type} (pol : Policy π) :
    Nat → Int → CSState π → CSState π
| 0, _, s => s
| Nat.succ k, tick_time, s =>
  advanceFaultQueueLoop pol k (tick_time + 1) (faultStep pol tick_time s)

/-- `CPUScheduler::advance_memory_manager` followed by
`MemoryManager::advance_fault_queue(time_slice, step_start_time)`. -/
def advanceMemoryManager {π : Type} (pol : Policy π) (time_slice step_start_time : Int)
    (s : CSState π) : CSState π :=
  if time_slice ≤ 0 then s
  else advanceFaultQueueLoop pol time_slice.toNat step_start_time s

/-- The per-device body of `IOManager::execute_all_devices`: run
`execute_step` when the device has pending work — the completion callback
is `handle_io_completion` — then `send_log_metrics`. -/
def execDevice {π : Type} (quantum current_time : Int)
    (acc : CSState π × List IODevice) (dev : IODevice) : CSState π × List IODevice :=
  let s := acc.1
  let r :=
    if dev.has_pending_requests then dev.execute_step quantum current_time
    else (dev, none)
  let dev := r.1
  let s :=
    match r.2 with
    | some c => handleIoCompletion s c.1 c.2
    | none => s
  let lg := dev.send_log_metrics current_time
  let s := { s with io_events := s.io_events ++ [lg.2] }
  (s, acc.2 ++ [lg.1])

/-- `IOManager::execute_all_devices`: fold `execDevice` over the devices
in map order. -/
def executeAllDevices {π : Type} (quantum current_time : Int) (s : CSState π) : CSState π :=
  let out := s.devices.foldl (execDevice quantum current_time) (s, [])
  { out.1 with devices := out.2 }

/-- `CPUScheduler::advance_io_devices`. -/
def advanceIoDevices {π : Type} (time_slice step_start_time : Int) (s : CSState π) : CSState π :=
  if time_slice ≤ 0 then s
  else executeAllDevices time_slice step_start_time s

/-- `IOManager::submit_io_request`: route to the device named by the burst
(default `disk`); a missing device only logs a warning. -/
def submitIoRequest {π : Type} (s : CSState π) (r : IORequest) : CSState π :=
  let device_name := if r.burst.io_device == "" then "disk" else r.burst.io_device
  if (s.devices.find? (fun d => d.device_name == device_name)).isSome then
    let devs := s.devices.map
      (fun d => if d.device_name == device_name then d.add_io_request r else d)
    { s with devices := devs }
  else s

/-- One iteration of `CPUScheduler::add_arrived_processes` (with a memory
manager installed): allocate the initial page table, register with the
memory manager, mark READY and enqueue. -/
def admitOne {π : Type} (s : CSState π) (pid : Int) : CSState π :=
  match arenaFind s.procs pid with
  | none => s
  | some proc =>
    if proc.state = ProcessState.NEW && proc.has_arrived s.current_time then
      let s := csUpdateProc s pid allocateInitialMemory
      let s := { s with mm := registerProcess s.mm pid }
      let s := csUpdateProc s pid
        (fun p => { p with memory_allocated := true, state := ProcessState.READY })
      { s with ready_queue := schedAdd s.alg s.procs s.ready_queue pid }
    else s

/-- `CPUScheduler::add_arrived_processes`. -/
def addArrivedProcesses {π : Type} (s : CSState π) : CSState π :=
  (s.procs.map (fun p => p.pid)).foldl admitOne s

/-- The skip-stale loop of `CPUScheduler::execute_step`
(lines 124-130): while the peeked process is WAITING, MEMORY_WAITING or
TERMINATED, remove it (the first queue entry with its pid is the head
itself) and peek again.  Returns the remaining queue and the dispatched
pid (`none` when the queue drained). -/
def skipStale (arena : List Process) : List Int → List Int × Option Int
| [] => ([], none)
| pid :: rest =>
  match arenaFind arena pid with
  | none => (pid :: rest, some pid)
  | some p =>
    if p.state = ProcessState.WAITING || p.state = ProcessState.MEMORY_WAITING
        || p.state = ProcessState.TERMINATED then
      skipStale arena rest
    else
      (pid :: rest, some pid)

/-- The block of `CPUScheduler::execute_step` run when the ready queue is
empty but processes still exist outside TERMINATED (lines 109-122): advance
the memory fault queue and every I/O device by one sub-tick, emit an IDLE
CPU event and advance the clock. -/
def idleStep {π : Type} (pol : Policy π) (s : CSState π) : CSState π :=
  let idle_start := s.current_time
  let s := advanceMemoryManager pol 1 idle_start s
  let s := advanceIoDevices 1 idle_start s
  let s := csLog s "IDLE" none false
  let s := { s with last_tick_was_idle := true }
  { s with current_time := s.current_time + 1 }

/-- The block run when the skip-stale loop drained the ready queue with
work still pending (lines 132-139): only the I/O devices advance, then the
clock; the memory fault queue is not advanced and no event is logged. -/
def drainStep {π : Type} (s : CSState π) : CSState π :=
  let idle_start := s.current_time
  let s := advanceIoDevices 1 idle_start s
  { s with current_time := s.current_time + 1 }

/-- The dispatch block's memory-failure tail (lines 160-166): the peeked
process goes to MEMORY_WAITING and leaves the queue; nothing runs. -/
def memFailStep {π : Type} (s : CSState π) (next_pid : Int) : CSState π :=
  let s := csUpdateProc s next_pid
    (fun p => { p with state := ProcessState.MEMORY_WAITING })
  let s := { s with ready_queue := schedRemove s.ready_queue next_pid }
  { s with running_process := none }

/-- The dispatch block's I/O-burst tail (lines 172-183): the process goes
to WAITING, leaves the queue and its burst is submitted to the device. -/
def ioDispatchStep {π : Type} (s : CSState π) (next_pid : Int)
    (curb : Option Burst) : CSState π :=
  let s := { s with procs := markProcessInactive s.mm s.procs next_pid }
  let s := csUpdateProc s next_pid (fun p => { p with state := ProcessState.WAITING })
  let s := { s with ready_queue := schedRemove s.ready_queue next_pid }
  let req := mkIORequest next_pid (curb.getD (mkBurst BurstType.io 0 "")) s.current_time
  let s := submitIoRequest s req
  { s with running_process := none }

/-- The completion tail of the CPU-execution block (lines 231-247):
metrics, TERMINATED, queue removal, memory release. -/
def completeTail {π : Type} (pol : Policy π) (s : CSState π) (next_pid : Int) :
    CSState π :=
  let s := { s with procs := arenaUpdate s.procs next_pid Process.calculate_metrics }
  let s := { s with completed := s.completed ++ [next_pid] }
  let s := csUpdateProc s next_pid (fun p => { p with state := ProcessState.TERMINATED })
  let s := { s with ready_queue := schedRemove s.ready_queue next_pid }
  let s := { s with procs := markProcessInactive s.mm s.procs next_pid }
  let u := unregisterProcess pol s.ps s.mm next_pid
  let s := { s with mm := u.1, ps := u.2 }
  let s := { s with pending_preemption := false }
  { s with running_process := none }

/-- The preemption tail of the CPU-execution block (lines 249-258): the
incumbent goes back to READY and re-enters the queue. -/
def preemptTail {π : Type} (s : CSState π) (next_pid : Int) : CSState π :=
  let s := { s with pending_preemption := false }
  let s := { s with procs := markProcessInactive s.mm s.procs next_pid }
  let s := csUpdateProc s next_pid (fun p => { p with state := ProcessState.READY })
  let s := { s with ready_queue := schedRemove s.ready_queue next_pid }
  let s := { s with ready_queue := schedAdd s.alg s.procs s.ready_queue next_pid }
  { s with running_process := none }

/-- The fall-through tail of the CPU-execution block (lines 259-273): the
process returns to READY; under round robin it also rotates in the queue. -/
def requeueTail {π : Type} (s : CSState π) (next_pid : Int) : CSState π :=
  let s :=
    if s.pending_preemption then { s with pending_preemption := false } else s
  if s.alg == SchedulingAlgorithm.ROUND_ROBIN then
    let s := { s with procs := markProcessInactive s.mm s.procs next_pid }
    let s := csUpdateProc s next_pid (fun p => { p with state := ProcessState.READY })
    let s := { s with ready_queue := schedRemove s.ready_queue next_pid }
    let s := { s with ready_queue := schedAdd s.alg s.procs s.ready_queue next_pid }
    s
  else
    let s := csUpdateProc s next_pid (fun p => { p with state := ProcessState.READY })
    s

/-- `Process::execute` seen from the scheduler (lines 196-204): run the
dispatched process through its `shared_ptr`, returning the time executed. -/
def execRunning {π : Type} (quantum : Int) (s : CSState π) (next_pid : Int) :
    Int × CSState π :=
  match arenaFind s.procs next_pid with
  | some p =>
    let e := p.execute quantum s.current_time
    (e.1, { s with procs := arenaUpdate s.procs next_pid (fun _ => e.2) })
  | none => (0, s)

/-- The metric/advance part of the CPU-execution block after the process
ran (lines 206-229 and the tail dispatch): log the event, bump the clock by
the time executed, advance memory and I/O by that many sub-ticks, then take
the completion, preemption or fall-through tail. -/
def afterExec {π : Type} (pol : Policy π) (s : CSState π) (next_pid : Int)
    (context_switch_occurred : Bool) (time_executed step_start_time : Int) :
    CSState π :=
  let will_complete :=
    match arenaFind s.procs next_pid with
    | some p => p.is_completed
    | none => false
  let will_preempt :=
    !will_complete &&
      (match s.alg with
       | SchedulingAlgorithm.ROUND_ROBIN => true
       | SchedulingAlgorithm.PRIORITY => s.pending_preemption
       | _ => false)
  let ev := if will_complete then "COMPLETE"
            else if will_preempt then "PREEMPT" else "EXEC"
  let s2 := csLog s ev (arenaFind s.procs next_pid) context_switch_occurred
  let s2 := { s2 with last_tick_was_idle := false }
  let s2 := { s2 with current_time := s2.current_time + time_executed }
  let s3 := advanceIoDevices time_executed step_start_time
    (advanceMemoryManager pol time_executed step_start_time s2)
  if will_complete then completeTail pol s3 next_pid
  else
    if s3.pending_preemption &&
        (s3.alg == SchedulingAlgorithm.ROUND_ROBIN
          || s3.alg == SchedulingAlgorithm.PRIORITY) then
      preemptTail s3 next_pid
    else requeueTail s3 next_pid

/-- The CPU-execution block (lines 190-273): mark RUNNING, execute, then
`afterExec`. -/
def runStep {π : Type} (pol : Policy π) (quantum : Int) (s : CSState π)
    (next_pid : Int) (context_switch_occurred : Bool) : CSState π :=
  let s := csUpdateProc s next_pid (fun p => { p with state := ProcessState.RUNNING })
  let step_start_time := s.current_time
  let ex := execRunning quantum s next_pid
  let s := { ex.2 with total_cpu_time := ex.2.total_cpu_time + ex.1 }
  afterExec pol s next_pid context_switch_occurred ex.1 step_start_time

/-- The context-switch accounting and memory preparation of the dispatch
block (lines 141-158): returns the readiness flag of
`prepare_process_for_cpu` together with the updated state. -/
def dispatchPrep {π : Type} (s : CSState π) (next_pid : Int)
    (context_switch_occurred : Bool) : Bool × CSState π :=
  let s :=
    if context_switch_occurred then
      { s with context_switches := s.context_switches + 1 }
    else s
  let s := { s with running_process := some next_pid }
  let prep := prepareProcessForCpu s.mm s.procs next_pid s.current_time
  (prep.1, { s with mm := prep.2.1, procs := prep.2.2 })

/-- The dispatch block of `CPUScheduler::execute_step` (lines 141-273). -/
def dispatchStep {π : Type} (pol : Policy π) (quantum : Int) (s : CSState π)
    (next_pid : Int) : CSState π :=
  let context_switch_occurred :=
    match s.running_process with
    | none => true
    | some rp => rp != next_pid
  let pr := dispatchPrep s next_pid context_switch_occurred
  let s2 := pr.2
  if !pr.1 then memFailStep s2 next_pid
  else
    let curb := (arenaFind s2.procs next_pid).bind Process.get_current_burst
    let is_io_burst := match curb with
                       | some b => b.type == BurstType.io
                       | none => false
    if is_io_burst then ioDispatchStep s2 next_pid curb
    else runStep pol quantum s2 next_pid context_switch_occurred

/-- The body of `CPUScheduler::execute_step`
(`src/cpu/cpu_scheduler.cpp` lines 104-273); each `return` of the source
is a leaf of this definition or of the block functions above. -/
def execStepCore {π : Type} (pol : Policy π) (quantum : Int) (s : CSState π) :
    CSState π :=
  let s := addArrivedProcesses s
  if s.ready_queue.isEmpty then
    if hasPendingProcesses s then idleStep pol s else s
  else
    let sk := skipStale s.procs s.ready_queue
    let s := { s with ready_queue := sk.1 }
    match sk.2 with
    | none => if hasPendingProcesses s then drainStep s else s
    | some next_pid => dispatchStep pol quantum s next_pid


/-- `CPUScheduler::execute_step` with the result type the specification's
abort semantics calls for: the source contains no fatal path, so the body
is total and every call returns `Except.ok`. -/
def execStep {π : Type} (pol : Policy π) (quantum : Int) (s : CSState π) :
    Except StepErr (CSState π) :=
  Except.ok (execStepCore pol quantum s)

/-! ### Concrete states used by counterexamples and witnesses -/

/-- A process with bursts `CPU(1), IO(2)` arriving at tick 0, after its CPU
burst ran to completion at tick 0 (quantum 0 = non-preemptive) and it moved
to WAITING on the I/O burst. -/
def procC1ran : Process :=
  { ((mkProcess 1 "P1" 0 [mkBurst BurstType.cpu 1 "", mkBurst BurstType.io 2 "disk"] 0 0).execute 0 0).2
    with state := ProcessState.WAITING }

/-- The simulator state in which `procC1ran` waits for its I/O completion. -/
def csC1 : CSState Unit :=
  { procs := [procC1ran], alg := SchedulingAlgorithm.FCFS, ready_queue := [],
    current_time := 1, context_switches := 1, running_process := none,
    pending_preemption := false, total_cpu_time := 1, last_tick_was_idle := false,
    completed := [], mm := mkMemoryManager 1 1, ps := (), devices := [],
    cpu_events := [], io_events := [] }

/-- `procC1ran` after its I/O completion callback fires at time 3, which
terminates it and computes its metrics. -/
def procC1post : Process :=
  lookupProc (handleIoCompletion csC1 1 3).procs 1

/-- A terminated process with metrics already filled in, used to witness the
C1 theorem: single CPU(2) burst, arrival 1, first start 2, completion 4. -/
def procC1w : Process :=
  { mkProcess 4 "W" 1 [mkBurst BurstType.cpu 2 ""] 0 0 with
      completion_time := 4, start_time := 2, state := ProcessState.TERMINATED }

/-- Process with bursts `CPU(2), CPU(5)`: its current burst remains 2 but its
`remaining_time` (total CPU) is 7. -/
def procC3a : Process :=
  mkProcess 1 "A" 0 [mkBurst BurstType.cpu 2 "", mkBurst BurstType.cpu 5 ""] 0 0

/-- Process with one `CPU(3)` burst: current burst remains 3 = `remaining_time`. -/
def procC3b : Process :=
  mkProcess 2 "B" 1 [mkBurst BurstType.cpu 3 ""] 0 0

/-- A frame the LRU scan considers: occupied and with a registered owner. -/
def lruCand (process_map : List Process) (f : Frame) : Bool :=
  f.occupied && (findProc process_map f.process_id).isSome

/-- The `last_access_time` the LRU scan reads for a frame. -/
def lruAccess (process_map : List Process) (f : Frame) : Int :=
  match findProc process_map f.process_id with
  | some p => (p.page_table.getD f.page_id.toNat (mkPage (-1))).last_access_time
  | none => 0

/-- Owner of the single, pinned, occupied frame used against C6: its page
is resident, `referenced` (pinned) and was last accessed at tick 5. -/
def procC6 : Process :=
  let pg : Page :=
    { mkPage 0 with
        valid := true, referenced := true, last_access_time := 5,
        process_id := 1, frame_number := 3 }
  { mkProcess 1 "P" 0 [] 0 1 with page_table := [pg] }

/-- A frame table whose only occupied frame (id 3) holds `procC6`'s pinned
page. -/
def framesC6 : List Frame :=
  [{ frame_id := 3, process_id := 1, page_id := 0, occupied := true }]

/-- Victim-owner process for the C4 scenario: its only page is resident in
frame 0 and pinned (`referenced`). -/
def procC4v : Process :=
  let pg : Page :=
    { mkPage 0 with
        valid := true, referenced := true, last_access_time := 5,
        process_id := 1, frame_number := 0 }
  { mkProcess 1 "P1" 0 [] 0 1 with page_table := [pg] }

/-- First pending page-load task (owner pid 2). -/
def taskC4a : PageLoadTask :=
  { pid := 2, page_id := 0, remaining_time := 2, frame_id := -1, enqueue_time := 0 }

/-- Second pending page-load task (owner pid 3). -/
def taskC4b : PageLoadTask :=
  { pid := 3, page_id := 0, remaining_time := 2, frame_id := -1, enqueue_time := 0 }

/-- Registry for the C4 scenario. -/
def arenaC4 : List Process :=
  [procC4v, mkProcess 2 "P2" 0 [] 0 1, mkProcess 3 "P3" 0 [] 0 1]

/-- Memory manager with a single, occupied, pinned frame and two queued
page-load tasks, no active task. -/
def mmC4 : MMState :=
  { mkMemoryManager 1 2 with
      frames := [{ frame_id := 0, process_id := 1, page_id := 0, occupied := true }],
      process_map := [1, 2, 3],
      fault_queue := [taskC4a, taskC4b] }

/-- A 3-tick I/O request owned by pid 7, used by the C5 witness. -/
def reqC5 : IORequest :=
  mkIORequest 7 (mkBurst BurstType.io 3 "disk") 0

/-- Device with `reqC5` active. -/
def devC5 : IODevice :=
  { mkIODevice "disk" IOSchedulingAlgorithm.FCFS 0 with current_request := some reqC5 }

/-- Device with `reqC5` queued and no active request. -/
def devC5b : IODevice :=
  { mkIODevice "disk" IOSchedulingAlgorithm.FCFS 0 with queue := [reqC5] }

/-- Process with bursts `CPU(1), IO(2)` waiting on its I/O burst (C5
witness). -/
def procC5 : Process :=
  { ((mkProcess 1 "P1" 0 [mkBurst BurstType.cpu 1 "", mkBurst BurstType.io 2 "disk"] 0 0).execute 0 0).2
    with state := ProcessState.WAITING }

/-- Simulator state holding `procC5` (C5 witness). -/
def csC5 : CSState Unit :=
  { procs := [procC5], alg := SchedulingAlgorithm.FCFS, ready_queue := [],
    current_time := 1, context_switches := 1, running_process := none,
    pending_preemption := false, total_cpu_time := 1, last_tick_was_idle := false,
    completed := [], mm := mkMemoryManager 1 1, ps := (), devices := [],
    cpu_events := [], io_events := [] }

/-- `procC5` after its I/O completion callback at time 3. -/
def qC5 : Process :=
  lookupProc (handleIoCompletion csC5 1 3).procs 1

/-- Terminated process left stale at the head of the ready queue (C7). -/
def procC7t : Process :=
  { mkProcess 1 "T" 0 [mkBurst BurstType.cpu 1 ""] 0 0 with state := ProcessState.TERMINATED }

/-- Ready process behind the stale entry (C7). -/
def procC7r : Process :=
  { mkProcess 2 "R" 0 [mkBurst BurstType.cpu 2 ""] 0 0 with state := ProcessState.READY }

/-- Scheduler state whose ready queue peeks the TERMINATED pid 1 (C7). -/
def csC7 : CSState Unit :=
  { procs := [procC7t, procC7r], alg := SchedulingAlgorithm.FCFS,
    ready_queue := [1, 2], current_time := 5, context_switches := 0,
    running_process := none, pending_preemption := false, total_cpu_time := 0,
    last_tick_was_idle := false, completed := [1], mm := mkMemoryManager 1 1,
    ps := (), devices := [], cpu_events := [], io_events := [] }

/-- The state `execute_step` produces from `csC7` (it returns normally). -/
def csC7post : CSState Unit :=
  match execStep lruPolicy 0 csC7 with
  | Except.ok s => s
  | Except.error _ => csC7

/-- Two-frame table used to witness the amended C6 theorem. -/
def procC6w : Process :=
  let pg0 : Page :=
    { mkPage 0 with valid := true, last_access_time := 5, process_id := 1, frame_number := 0 }
  let pg1 : Page :=
    { mkPage 1 with valid := true, last_access_time := 3, process_id := 1, frame_number := 1 }
  { mkProcess 1 "P" 0 [] 0 2 with page_table := [pg0, pg1] }

def framesC6w : List Frame :=
  [{ frame_id := 0, process_id := 1, page_id := 0, occupied := true },
   { frame_id := 1, process_id := 1, page_id := 1, occupied := true }]

/-- Stale TERMINATED process heading the ready queue (C2). -/
def procC2t : Process :=
  { mkProcess 1 "T" 0 [mkBurst BurstType.cpu 1 ""] 0 0 with state := ProcessState.TERMINATED }

/-- Process waiting on memory, so the system still has pending work (C2). -/
def procC2m : Process :=
  { mkProcess 2 "M" 0 [mkBurst BurstType.cpu 3 ""] 0 1 with
      state := ProcessState.MEMORY_WAITING }

/-- The page-load task in flight for `procC2m` (C2). -/
def taskC2 : PageLoadTask :=
  { pid := 2, page_id := 0, remaining_time := 2, frame_id := 0, enqueue_time := 3 }

/-- Memory manager with `taskC2` active (C2). -/
def mmC2 : MMState :=
  { mkMemoryManager 1 1 with
      process_map := [2], active_task := some taskC2, memory_time := 4 }

/-- Scheduler state whose ready queue holds only the stale TERMINATED pid 1
while pid 2 waits on memory: the queue drains to no candidate (C2). -/
def csC2 : CSState Unit :=
  { procs := [procC2t, procC2m], alg := SchedulingAlgorithm.FCFS,
    ready_queue := [1], current_time := 5, context_switches := 0,
    running_process := none, pending_preemption := false, total_cpu_time := 0,
    last_tick_was_idle := false, completed := [1], mm := mmC2,
    ps := (), devices := [], cpu_events := [], io_events := [] }

/-- The same state with an already-empty ready queue (C2's confirmed
branch). -/
def csC2w : CSState Unit :=
  { csC2 with ready_queue := [] }

/-- Well-formed registry: every process and every burst carries a
non-negative remaining time (true of any loaded workload, and preserved by
execution). -/
abbrev WfProcs (l : List Process) : Prop :=
  ∀ p ∈ l, 0 ≤ p.remaining_time ∧ ∀ b ∈ p.burst_sequence, 0 ≤ b.remaining_time

end OSSim

namespace OSSim

/-! ## Theorems -/

/-- C1, counterexample.  `procC1post` reached TERMINATED through the I/O
completion path; its `turnaround` is `completion - arrival`, but its
`waiting` is `turnaround - sum(CPU burst durations)` and NOT
`turnaround - sum(CPU) - sum(IO)` as the claim states: the code subtracts
`burst_time`, which the constructor sets to the total CPU time only. -/
theorem C1_counterexample :
    procC1post.state = ProcessState.TERMINATED ∧
    procC1post.completion_time = 3 ∧ procC1post.arrival_time = 0 ∧
    procC1post.turnaround_time = procC1post.completion_time - procC1post.arrival_time ∧
    sumIoDurations procC1post.burst_sequence = 2 ∧
    procC1post.waiting_time ≠
      procC1post.turnaround_time - sumCpuDurations procC1post.burst_sequence
        - sumIoDurations procC1post.burst_sequence := by
  decide

/-- C1, amended: at termination `calculate_metrics` sets
`turnaround = completion - arrival` and `response = first_start - arrival`
(when a first start was recorded), but `waiting = turnaround - sum(CPU
burst durations)` only — I/O burst durations are not subtracted.  The
hypothesis `hb` is the invariant established by both `Process`
constructors (`burst_time` is the total CPU time). -/
theorem C1_terminated_metrics (p : Process)
    (hb : p.burst_time = sumCpuDurations p.burst_sequence)
    (hs : 0 ≤ p.start_time) :
    (p.calculate_metrics).turnaround_time = p.completion_time - p.arrival_time ∧
    (p.calculate_metrics).waiting_time =
      (p.completion_time - p.arrival_time) - sumCpuDurations p.burst_sequence ∧
    (p.calculate_metrics).response_time = p.start_time - p.arrival_time := by
  have h : p.start_time ≥ 0 := hs
  simp [Process.calculate_metrics, h, hb]

/-- C1, witness for `C1_terminated_metrics` at `procC1w`. -/
theorem C1_terminated_metrics_witness :
    procC1w.burst_time = sumCpuDurations procC1w.burst_sequence ∧
    0 ≤ procC1w.start_time ∧
    ((procC1w.calculate_metrics).turnaround_time
        = procC1w.completion_time - procC1w.arrival_time ∧
      (procC1w.calculate_metrics).waiting_time =
        (procC1w.completion_time - procC1w.arrival_time)
          - sumCpuDurations procC1w.burst_sequence ∧
      (procC1w.calculate_metrics).response_time
        = procC1w.start_time - procC1w.arrival_time) :=
  ⟨by decide, by decide, C1_terminated_metrics procC1w (by decide) (by decide)⟩

/-- The order induced by the source's SJF comparator: lexicographic on
(process `remaining_time`, `arrival_time`).  The key is the process-level
`remaining_time` (total remaining CPU over all bursts), not the current
burst's remaining duration. -/
theorem sjfLe_iff (a b : Process) :
    sjfLe a b = true ↔
      (a.remaining_time < b.remaining_time ∨
        (a.remaining_time = b.remaining_time ∧ a.arrival_time ≤ b.arrival_time)) := by
  unfold sjfLe sjfLt
  rcases eq_or_ne b.remaining_time a.remaining_time with h | h
  · simp [h]
    try omega
  · simp [h, Ne.symm h]
    try omega

theorem sjfLe_total (a b : Process) : sjfLe a b = true ∨ sjfLe b a = true := by
  rw [sjfLe_iff, sjfLe_iff]
  omega

theorem sjfLe_trans (a b c : Process) (h1 : sjfLe a b = true)
    (h2 : sjfLe b c = true) : sjfLe a c = true := by
  rw [sjfLe_iff] at h1 h2 ⊢
  omega

theorem sjfLe_refl (a : Process) : sjfLe a a = true := by
  rw [sjfLe_iff]
  omega

/-- C3, counterexample.  Pushing `procC3a` (current burst remaining 2,
total remaining CPU 7) and then `procC3b` (current burst remaining 3,
total 3) makes `peek` return `procC3b`, although in the claim's order
(current-burst remaining, then arrival, then PID) `procC3a` precedes it:
the code sorts by the process-level `remaining_time`, not by the current
burst. -/
theorem C3_counterexample :
    sjfGetNextProcess (sjfAddProcess (sjfAddProcess [] procC3a) procC3b) = some procC3b ∧
    procC3a ∈ sjfAddProcess (sjfAddProcess [] procC3a) procC3b ∧
    sjfClaimLe procC3a procC3b = true ∧
    sjfClaimLe procC3b procC3a = false := by
  decide

/-- C3, amended: after every push the SJF ready queue is a permutation of
the old queue plus the new process, sorted by ascending process
`remaining_time` (total remaining CPU time, re-sorted with current values)
with ties broken by arrival tick — PID is not a tie-break, and the order of
processes equal on both keys is whatever the unstable `std::sort` leaves —
and `peek` returns the front, a minimal process in that order. -/
theorem C3_sjf_queue (q : List Process) (p : Process) :
    (sjfAddProcess q p).Perm (q ++ [p]) ∧
    List.Pairwise (fun a b => sjfLe a b = true) (sjfAddProcess q p) ∧
    (∀ m, sjfGetNextProcess (sjfAddProcess q p) = some m →
      ∀ x ∈ sjfAddProcess q p, sjfLe m x = true) := by
  haveI hTot : IsTotal Process (fun a b => sjfLe a b = true) := ⟨sjfLe_total⟩
  haveI hTrans : IsTrans Process (fun a b => sjfLe a b = true) :=
    ⟨fun a b c => sjfLe_trans a b c⟩
  have hsorted : List.Pairwise (fun a b => sjfLe a b = true) (sjfAddProcess q p) :=
    List.sorted_insertionSort _ _
  refine ⟨List.perm_insertionSort _ _, hsorted, ?_⟩
  intro m hm x hx
  unfold sjfGetNextProcess at hm
  cases hq : sjfAddProcess q p with
  | nil => rw [hq] at hm; simp at hm
  | cons hd tl =>
    rw [hq] at hm hx hsorted
    simp only [List.head?] at hm
    cases hm
    rcases List.mem_cons.mp hx with hx1 | hx2
    · rw [hx1]; exact sjfLe_refl _
    · exact (List.pairwise_cons.mp hsorted).1 x hx2

/-- C3, witness for `C3_sjf_queue` at the concrete queue `[procC3a]` plus
`procC3b`, whose head is `procC3b`. -/
theorem C3_sjf_queue_witness :
    (sjfAddProcess [procC3a] procC3b).Perm ([procC3a] ++ [procC3b]) ∧
    List.Pairwise (fun a b => sjfLe a b = true) (sjfAddProcess [procC3a] procC3b) ∧
    (∀ x ∈ sjfAddProcess [procC3a] procC3b, sjfLe procC3b x = true) :=
  ⟨(C3_sjf_queue [procC3a] procC3b).1,
   (C3_sjf_queue [procC3a] procC3b).2.1,
   fun x hx => (C3_sjf_queue [procC3a] procC3b).2.2 procC3b (by decide) x hx⟩

/-- One unfolding of the LRU scan loop. -/
theorem lruScan_cons (pm : List Process) (f : Frame) (rest : List Frame) (v m : Int) :
    lruScan pm (f :: rest) (v, m) =
      (if f.occupied then
        match findProc pm f.process_id with
        | some p =>
          if (p.page_table.getD f.page_id.toNat (mkPage (-1))).last_access_time < m then
            lruScan pm rest
              (f.frame_id, (p.page_table.getD f.page_id.toNat (mkPage (-1))).last_access_time)
          else lruScan pm rest (v, m)
        | none => lruScan pm rest (v, m)
      else lruScan pm rest (v, m)) := rfl

/-- Invariant of the `(victim, min_time)` accumulator through the LRU scan
loop: either no candidate beat the accumulator (result unchanged, every
candidate's access time is at least `m`), or the result names a candidate
frame achieving the minimum access time among the scanned candidates,
strictly below `m`. -/
theorem lruScan_spec (pm : List Process) (fs : List Frame) : ∀ (v m : Int),
    (lruScan pm fs (v, m) = (v, m) ∧
      ∀ f ∈ fs, lruCand pm f = true → m ≤ lruAccess pm f) ∨
    (∃ f ∈ fs, lruCand pm f = true ∧
      (lruScan pm fs (v, m)).1 = f.frame_id ∧
      (lruScan pm fs (v, m)).2 = lruAccess pm f ∧
      (lruScan pm fs (v, m)).2 < m ∧
      ∀ g ∈ fs, lruCand pm g = true → (lruScan pm fs (v, m)).2 ≤ lruAccess pm g) := by
  induction fs with
  | nil =>
    intro v m
    exact Or.inl ⟨rfl, by simp⟩
  | cons f rest ih =>
    intro v m
    by_cases hocc : f.occupied
    · cases hfind : findProc pm f.process_id with
      | none =>
        have hstep : lruScan pm (f :: rest) (v, m) = lruScan pm rest (v, m) := by
          rw [lruScan_cons, if_pos hocc, hfind]
        have hcand : lruCand pm f = false := by
          simp [lruCand, hfind]
        rw [hstep]
        rcases ih v m with ⟨h1, h2⟩ | ⟨g, hg, hgc, hg1, hg2, hg3, hg4⟩
        · left
          refine ⟨h1, ?_⟩
          intro x hx hxc
          rcases List.mem_cons.mp hx with rfl | hx2
          · rw [hcand] at hxc
            exact absurd hxc (by decide)
          · exact h2 x hx2 hxc
        · right
          refine ⟨g, List.mem_cons_of_mem _ hg, hgc, hg1, hg2, hg3, ?_⟩
          intro x hx hxc
          rcases List.mem_cons.mp hx with rfl | hx2
          · rw [hcand] at hxc
            exact absurd hxc (by decide)
          · exact hg4 x hx2 hxc
      | some p =>
        have haeq : lruAccess pm f
            = (p.page_table.getD f.page_id.toNat (mkPage (-1))).last_access_time := by
          simp [lruAccess, hfind]
        have hcand : lruCand pm f = true := by
          simp [lruCand, hocc, hfind]
        by_cases hlt : (p.page_table.getD f.page_id.toNat (mkPage (-1))).last_access_time < m
        · have hstep : lruScan pm (f :: rest) (v, m)
              = lruScan pm rest
                  (f.frame_id, (p.page_table.getD f.page_id.toNat (mkPage (-1))).last_access_time) := by
            rw [lruScan_cons, if_pos hocc, hfind]
            show (if (p.page_table.getD f.page_id.toNat (mkPage (-1))).last_access_time < m then
                lruScan pm rest
                  (f.frame_id, (p.page_table.getD f.page_id.toNat (mkPage (-1))).last_access_time)
              else lruScan pm rest (v, m)) = _
            rw [if_pos hlt]
          rw [hstep]
          rcases ih f.frame_id ((p.page_table.getD f.page_id.toNat (mkPage (-1))).last_access_time)
            with ⟨h1, h2⟩ | ⟨g, hg, hgc, hg1, hg2, hg3, hg4⟩
          · right
            refine ⟨f, List.mem_cons_self f rest, hcand, ?_, ?_, ?_, ?_⟩
            · rw [h1]
            · rw [h1, haeq]
            · rw [h1]
              exact hlt
            · intro x hx hxc
              rcases List.mem_cons.mp hx with rfl | hx2
              · rw [h1, haeq]
              · rw [h1]
                exact h2 x hx2 hxc
          · right
            refine ⟨g, List.mem_cons_of_mem _ hg, hgc, hg1, hg2, ?_, ?_⟩
            · omega
            · intro x hx hxc
              rcases List.mem_cons.mp hx with rfl | hx2
              · rw [haeq]
                omega
              · exact hg4 x hx2 hxc
        · have hstep : lruScan pm (f :: rest) (v, m) = lruScan pm rest (v, m) := by
            rw [lruScan_cons, if_pos hocc, hfind]
            show (if (p.page_table.getD f.page_id.toNat (mkPage (-1))).last_access_time < m then
                lruScan pm rest
                  (f.frame_id, (p.page_table.getD f.page_id.toNat (mkPage (-1))).last_access_time)
              else lruScan pm rest (v, m)) = _
            rw [if_neg hlt]
          rw [hstep]
          rcases ih v m with ⟨h1, h2⟩ | ⟨g, hg, hgc, hg1, hg2, hg3, hg4⟩
          · left
            refine ⟨h1, ?_⟩
            intro x hx hxc
            rcases List.mem_cons.mp hx with rfl | hx2
            · rw [haeq]
              omega
            · exact h2 x hx2 hxc
          · right
            refine ⟨g, List.mem_cons_of_mem _ hg, hgc, hg1, hg2, hg3, ?_⟩
            intro x hx hxc
            rcases List.mem_cons.mp hx with rfl | hx2
            · rw [haeq]
              omega
            · exact hg4 x hx2 hxc
    · have hstep : lruScan pm (f :: rest) (v, m) = lruScan pm rest (v, m) := by
        rw [lruScan_cons, if_neg hocc]
      have hcand : lruCand pm f = false := by
        simp [lruCand, hocc]
      rw [hstep]
      rcases ih v m with ⟨h1, h2⟩ | ⟨g, hg, hgc, hg1, hg2, hg3, hg4⟩
      · left
        refine ⟨h1, ?_⟩
        intro x hx hxc
        rcases List.mem_cons.mp hx with rfl | hx2
        · rw [hcand] at hxc
          exact absurd hxc (by decide)
        · exact h2 x hx2 hxc
      · right
        refine ⟨g, List.mem_cons_of_mem _ hg, hgc, hg1, hg2, hg3, ?_⟩
        intro x hx hxc
        rcases List.mem_cons.mp hx with rfl | hx2
        · rw [hcand] at hxc
          exact absurd hxc (by decide)
        · exact hg4 x hx2 hxc

/-- C6, counterexample.  In a frame table whose only occupied frame holds a
pinned page (`referenced` set), `select_victim` returns that frame (id 3)
— not "none": the source ignores the pin entirely and would fall back to
frame 0 rather than `-1` even with no candidate. -/
theorem C6_counterexample :
    lruSelectVictim framesC6 [procC6] 10 = 3 ∧
    (∀ f ∈ framesC6, f.occupied = true
      ∧ (framePage [procC6] f).map Page.referenced = some true) ∧
    lruSelectVictim framesC6 [procC6] 10 ≠ -1 := by
  decide

/-- C6, amended: `select_victim` ignores the `referenced` pin (the caller
`reserve_frame_for_task` enforces it instead).  Among occupied frames with
a registered owner it returns the id of one whose page has minimal
`last_access_time`; when there is no such frame it returns frame `0`, not
none.  `hid` states frame ids are non-negative (true of every constructed
frame table) and `hacc` keeps the scanned access times below the
`INT_MAX` sentinel. -/
theorem C6_lru (frames : List Frame) (pm : List Process) (now : Int)
    (hid : ∀ f ∈ frames, 0 ≤ f.frame_id)
    (hacc : ∀ f ∈ frames, lruCand pm f = true → lruAccess pm f < intMax) :
    (frames.all (fun f => !lruCand pm f) = true →
      lruSelectVictim frames pm now = 0) ∧
    (∀ f0 ∈ frames, lruCand pm f0 = true →
      ∃ f ∈ frames, lruCand pm f = true ∧
        f.frame_id = lruSelectVictim frames pm now ∧
        ∀ g ∈ frames, lruCand pm g = true → lruAccess pm f ≤ lruAccess pm g) := by
  constructor
  · intro hall
    rcases lruScan_spec pm frames (-1) intMax with ⟨h1, _⟩ | ⟨g, hg, hgc, _, _, _, _⟩
    · unfold lruSelectVictim
      show (if (lruScan pm frames (-1, intMax)).1 ≠ -1
            then (lruScan pm frames (-1, intMax)).1 else 0) = 0
      rw [h1]
      simp
    · have := List.all_eq_true.mp hall g hg
      rw [hgc] at this
      exact absurd this (by decide)
  · intro f0 hf0 hf0c
    rcases lruScan_spec pm frames (-1) intMax with ⟨_, h2⟩ | ⟨g, hg, hgc, hg1, hg2, _, hg4⟩
    · have := h2 f0 hf0 hf0c
      have hlt := hacc f0 hf0 hf0c
      omega
    · refine ⟨g, hg, hgc, ?_, ?_⟩
      · have hgid := hid g hg
        have hne : (lruScan pm frames (-1, intMax)).1 ≠ -1 := by
          rw [hg1]
          omega
        unfold lruSelectVictim
        show g.frame_id = (if (lruScan pm frames (-1, intMax)).1 ≠ -1
            then (lruScan pm frames (-1, intMax)).1 else 0)
        rw [if_pos hne, hg1]
      · intro x hx hxc
        have := hg4 x hx hxc
        omega

/-- C6, witness for `C6_lru` on a two-frame table whose page in frame 1 was
accessed least recently. -/
theorem C6_lru_witness :
    (∀ f ∈ framesC6w, 0 ≤ f.frame_id) ∧
    (∀ f ∈ framesC6w, lruCand [procC6w] f = true → lruAccess [procC6w] f < intMax) ∧
    ((framesC6w.all (fun f => !lruCand [procC6w] f) = true →
        lruSelectVictim framesC6w [procC6w] 9 = 0) ∧
      (∀ f0 ∈ framesC6w, lruCand [procC6w] f0 = true →
        ∃ f ∈ framesC6w, lruCand [procC6w] f = true ∧
          f.frame_id = lruSelectVictim framesC6w [procC6w] 9 ∧
          ∀ g ∈ framesC6w, lruCand [procC6w] g = true →
            lruAccess [procC6w] f ≤ lruAccess [procC6w] g)) :=
  ⟨by decide, by decide, C6_lru framesC6w [procC6w] 9 (by decide) (by decide)⟩

/-- C4, counterexample.  With no free frame and the policy (here LRU, which
ignores the pin) returning the pinned frame 0, activating the head task
changes nothing at all — in particular the task stays at the HEAD of the
fault queue; it is not pushed back to the tail as the claim states (the
queue `[taskC4a, taskC4b]` would then have become `[taskC4b, taskC4a]`). -/
theorem C4_counterexample :
    startNextTaskIfPossible lruPolicy () mmC4 arenaC4 7 = (mmC4, arenaC4, ()) ∧
    findFreeFrame mmC4 = -1 ∧
    lruPolicy.select_victim () mmC4.frames (registeredProcs mmC4 arenaC4) mmC4.memory_time = 0 ∧
    (framePage arenaC4 (mmC4.frames.getD 0 defaultFrame)).map Page.referenced = some true ∧
    mmC4.fault_queue ≠ mmC4.fault_queue.tail ++ [taskC4a] := by
  decide

/-- C4, amended: when a page-load activation finds no free frame and the
policy's victim frame holds a `referenced` (pinned) page of a registered
process, the activation evicts nothing and modifies no state at all — the
task simply REMAINS AT THE HEAD of the fault queue (the sub-tick's
activation is not consumed); it is not pushed back to the tail. -/
theorem C4_pinned_wait {π : Type} (pol : Policy π) (ps : π) (mm : MMState)
    (arena : List Process) (t : Int) (v : Int) (vp : Process)
    (hactive : mm.active_task = none)
    (hq : mm.fault_queue ≠ [])
    (hfree : findFreeFrame mm = -1)
    (hv : pol.select_victim ps mm.frames (registeredProcs mm arena) mm.memory_time = v)
    (h0 : 0 ≤ v) (h1 : v < mm.total_frames)
    (hocc : (mm.frames.getD v.toNat defaultFrame).occupied = true)
    (hreg : mm.process_map.contains (mm.frames.getD v.toNat defaultFrame).process_id = true)
    (hvp : arenaFind arena (mm.frames.getD v.toNat defaultFrame).process_id = some vp)
    (hpg : 0 ≤ (mm.frames.getD v.toNat defaultFrame).page_id ∧
      (mm.frames.getD v.toNat defaultFrame).page_id < (vp.page_table.length : Int))
    (hpin : (vp.page_table.getD (mm.frames.getD v.toNat defaultFrame).page_id.toNat
      (mkPage (-1))).referenced = true) :
    startNextTaskIfPossible pol ps mm arena t = (mm, arena, ps) := by
  have hvne : v ≠ -1 := by omega
  have hnot1 : ¬ v < 0 := by omega
  have hnot2 : ¬ v ≥ mm.total_frames := by omega
  cases hql : mm.fault_queue with
  | nil => exact absurd hql hq
  | cons task rest =>
    have hres : reserveFrameForTask pol ps mm arena task = (false, mm, arena, ps, task) := by
      simp only [List.getD_eq_getElem?_getD] at hocc hreg hvp hpg hpin
      have hmem : (mm.frames[v.toNat]?.getD defaultFrame).process_id ∈ mm.process_map := by
        simpa using hreg
      have hlen : (mm.frames[v.toNat]?.getD defaultFrame).page_id.toNat < vp.page_table.length := by
        omega
      have hpin2 : vp.page_table[(mm.frames[v.toNat]?.getD defaultFrame).page_id.toNat].referenced
          = true := by
        have h := hpin
        rw [List.getElem?_eq_getElem hlen] at h
        simpa using h
      unfold reserveFrameForTask
      simp only [hfree, hv]
      simp [hvne, hnot1, hnot2, hocc, hmem, hvp, hpg, hpin2]
    unfold startNextTaskIfPossible
    simp [hactive, hql, hres]

/-- C4, witness for `C4_pinned_wait` at the concrete `mmC4` scenario. -/
theorem C4_pinned_wait_witness :
    mmC4.active_task = none ∧
    mmC4.fault_queue ≠ [] ∧
    findFreeFrame mmC4 = -1 ∧
    lruPolicy.select_victim () mmC4.frames (registeredProcs mmC4 arenaC4) mmC4.memory_time = 0 ∧
    startNextTaskIfPossible lruPolicy () mmC4 arenaC4 7 = (mmC4, arenaC4, ()) :=
  ⟨by decide, by decide, by decide, by decide,
   C4_pinned_wait lruPolicy () mmC4 arenaC4 7 0 procC4v (by decide) (by decide)
     (by decide) (by decide) (by decide) (by decide) (by decide) (by decide)
     (by decide) (by decide) (by decide)⟩

theorem erasePid_not_contains (l : List Int) (pid : Int) :
    (erasePid l pid).contains pid = false := by
  simp [erasePid, List.contains]

/-- Looking up the updated pid after an `arenaUpdate` that preserves the
pid returns the updated process. -/
theorem arenaFind_arenaUpdate (arena : List Process) (pid : Int)
    (f : Process → Process) (hf : ∀ q, q.pid = pid → (f q).pid = q.pid) :
    arenaFind (arenaUpdate arena pid f) pid = (arenaFind arena pid).map f := by
  induction arena with
  | nil => rfl
  | cons a rest ih =>
    have hstep : arenaUpdate (a :: rest) pid f
        = (if (a.pid == pid) = true then f a else a) :: arenaUpdate rest pid f := rfl
    rw [hstep]
    by_cases h : (a.pid == pid) = true
    · have ha : a.pid = pid := by simpa using h
      have hfa : ((f a).pid == pid) = true := by
        rw [hf a ha, ha]
        simp
      rw [if_pos h]
      unfold arenaFind
      simp [List.find?, hfa, h]
    · rw [if_neg h]
      unfold arenaFind at ih ⊢
      simp [List.find?, h]
      exact ih

/-- `set_process_pages_referenced` does not touch any `page_faults`
counter. -/
theorem find_page_faults_setReferenced (mm : MMState) (arena : List Process)
    (pid : Int) (b : Bool) :
    (arenaFind (setProcessPagesReferenced mm arena pid b) pid).map Process.page_faults
      = (arenaFind arena pid).map Process.page_faults := by
  unfold setProcessPagesReferenced
  by_cases h : mm.process_map.contains pid = true
  · rw [if_pos h, arenaFind_arenaUpdate]
    · cases arenaFind arena pid <;> rfl
    · intro q hq
      rfl
  · rw [if_neg (by simpa using h)]

/-- C9: `prepare_process_for_cpu` on a process whose memory footprint is
zero pages allocates an empty page table, sees every page resident
(vacuously), returns ready, enqueues no page-load task, counts no fault
(global or per-process), and leaves the process out of the memory-waiting
set — it can never enter MEMORY_WAITING. -/
theorem C9_zero_pages (mm : MMState) (arena : List Process) (pid now : Int)
    (p : Process)
    (hp : arenaFind arena pid = some p)
    (hmem : p.memory_required = 0)
    (hpt : p.page_table = []) :
    (prepareProcessForCpu mm arena pid now).1 = true ∧
    (prepareProcessForCpu mm arena pid now).2.1.fault_queue = mm.fault_queue ∧
    (prepareProcessForCpu mm arena pid now).2.1.total_page_faults = mm.total_page_faults ∧
    (prepareProcessForCpu mm arena pid now).2.1.processes_waiting_on_memory.contains pid
      = false ∧
    (arenaFind ((prepareProcessForCpu mm arena pid now).2.2) pid).map Process.page_faults
      = some p.page_faults := by
  have hall : allocateInitialMemory p = { p with page_table := [] } := by
    simp [allocateInitialMemory, hmem]
  have hres : areAllPagesResident { p with page_table := [] } = true := by
    simp [areAllPagesResident]
  have hstep : prepareProcessForCpu mm arena pid now =
      (true,
       { mm with processes_waiting_on_memory :=
           erasePid mm.processes_waiting_on_memory pid },
       setProcessPagesReferenced mm
         (arenaUpdate arena pid (fun _ => { p with page_table := [] })) pid true) := by
    unfold prepareProcessForCpu
    rw [hp]
    simp [hpt, hall, hres]
  rw [hstep]
  refine ⟨rfl, rfl, rfl, erasePid_not_contains _ _, ?_⟩
  have hpid : p.pid = pid := by
    have := List.find?_some hp
    simpa using this
  rw [find_page_faults_setReferenced]
  rw [arenaFind_arenaUpdate arena pid _ (fun q hq => by rw [hpid, hq])]
  rw [hp]
  rfl

/-- C9, witness: a registered process with `memory_required = 0`. -/
theorem C9_zero_pages_witness :
    arenaFind [mkProcess 9 "Z" 0 [mkBurst BurstType.cpu 1 ""] 0 0] 9
      = some (mkProcess 9 "Z" 0 [mkBurst BurstType.cpu 1 ""] 0 0) ∧
    (mkProcess 9 "Z" 0 [mkBurst BurstType.cpu 1 ""] 0 0).memory_required = 0 ∧
    (prepareProcessForCpu (mkMemoryManager 2 1)
      [mkProcess 9 "Z" 0 [mkBurst BurstType.cpu 1 ""] 0 0] 9 0).1 = true :=
  ⟨by decide, by decide,
   (C9_zero_pages (mkMemoryManager 2 1)
      [mkProcess 9 "Z" 0 [mkBurst BurstType.cpu 1 ""] 0 0] 9 0
      (mkProcess 9 "Z" 0 [mkBurst BurstType.cpu 1 ""] 0 0)
      (by decide) (by decide) (by decide)).1⟩

/-- The frame-freeing fold of `unregister_process`, split into its two
effects: the freed frame table and the policy notifications over exactly
the frames owned by the pid, in frame order. -/
theorem freeFold_spec {π : Type} (pol : Policy π) (pid : Int) (fs : List Frame) :
    ∀ acc : List Frame × π,
      (fs.foldl (fun (acc : List Frame × π) fr =>
        if fr.process_id == pid then
          (acc.1 ++ [{ fr with process_id := -1, page_id := -1, occupied := false }],
           pol.on_frame_release acc.2 fr.frame_id)
        else (acc.1 ++ [fr], acc.2)) acc)
      = (acc.1 ++ fs.map (fun fr =>
            if fr.process_id == pid then
              { fr with process_id := -1, page_id := -1, occupied := false }
            else fr),
         (fs.filter (fun fr => fr.process_id == pid)).foldl
           (fun a fr => pol.on_frame_release a fr.frame_id) acc.2) := by
  induction fs with
  | nil =>
    intro acc
    simp
  | cons f rest ih =>
    intro acc
    by_cases h : (f.process_id == pid) = true
    · simp only [List.foldl_cons, h, if_true, List.map_cons, List.filter_cons, h]
      rw [ih]
      simp
    · simp only [List.foldl_cons, h, if_false, List.map_cons, List.filter_cons, h]
      rw [ih]
      simp [h]

/-- `request_preemption_if_needed` only ever sets the pending-preemption
flag; it touches no process. -/
theorem requestPreemption_procs {π : Type} (s : CSState π) (pid : Int) :
    (requestPreemptionIfNeeded s pid).procs = s.procs := by
  unfold requestPreemptionIfNeeded
  cases s.running_process with
  | none => rfl
  | some rp =>
    dsimp only
    cases s.alg with
    | FCFS => rfl
    | SJF => rfl
    | ROUND_ROBIN => rfl
    | PRIORITY =>
      dsimp only
      cases arenaFind s.procs pid with
      | none => rfl
      | some cand =>
        cases arenaFind s.procs rp with
        | none => rfl
        | some run =>
          dsimp only
          split <;> rfl

/-- C10: `unregister_process` frees exactly the frames owned by the pid
(leaving every other frame unchanged), drops all of the pid's pending
page-load tasks and its active task if any, removes the pid from the
registry, notifies the replacement policy once per freed frame in frame
order, and leaves both global counters unchanged.  It takes no process
arena, so the per-process `replacements` counters are untouched by
construction; the counters are incremented only inside `evict_frame`,
called solely from `reserve_frame_for_task`. -/
theorem C10_unregister {π : Type} (pol : Policy π) (ps : π) (mm : MMState) (pid : Int) :
    (unregisterProcess pol ps mm pid).1.frames
      = mm.frames.map (fun fr =>
          if fr.process_id == pid then
            { fr with process_id := -1, page_id := -1, occupied := false }
          else fr) ∧
    (unregisterProcess pol ps mm pid).1.fault_queue
      = mm.fault_queue.filter (fun t => !(t.pid == pid)) ∧
    (unregisterProcess pol ps mm pid).1.active_task
      = (match mm.active_task with
         | some t => if t.pid == pid then none else some t
         | none => none) ∧
    (unregisterProcess pol ps mm pid).1.process_map = erasePid mm.process_map pid ∧
    (unregisterProcess pol ps mm pid).2
      = (mm.frames.filter (fun fr => fr.process_id == pid)).foldl
          (fun a fr => pol.on_frame_release a fr.frame_id) ps ∧
    (unregisterProcess pol ps mm pid).1.total_replacements = mm.total_replacements ∧
    (unregisterProcess pol ps mm pid).1.total_page_faults = mm.total_page_faults := by
  unfold unregisterProcess
  cases hat : mm.active_task with
  | none =>
    simp only [hat]
    rw [freeFold_spec]
    simp
  | some t =>
    by_cases h : (t.pid == pid) = true
    · simp only [hat, h, if_true]
      rw [freeFold_spec]
      simp
    · simp only [hat, h, if_false]
      rw [freeFold_spec]
      simp [h]

/-- The time a request executes in one device step is its full remaining
duration whenever the quantum covers it (or the call is non-preemptive),
and the request then reports completion with its pid preserved. -/
theorem ioRequest_execute_complete (r : IORequest) (quantum now : Int)
    (_hpos : 0 < r.burst.remaining_time)
    (hle : r.burst.remaining_time ≤ quantum ∨ quantum ≤ 0) :
    (r.execute quantum now).1 = r.burst.remaining_time ∧
    ((r.execute quantum now).2).is_completed = true ∧
    ((r.execute quantum now).2).pid = r.pid := by
  have hte : (if quantum > 0 then min quantum r.burst.remaining_time
      else r.burst.remaining_time) = r.burst.remaining_time := by
    rcases hle with h | h
    · by_cases hq : quantum > 0
      · simp [hq]
        omega
      · simp [hq]
    · have hq : ¬ quantum > 0 := by omega
      simp [hq]
  unfold IORequest.execute
  by_cases hst : r.start_time < 0 <;>
    simp [hst, hte, IORequest.is_completed, Burst.is_completed]

/-- `calculate_metrics` writes only the three metric fields. -/
theorem calculate_metrics_fields (x : Process) :
    (x.calculate_metrics).pid = x.pid ∧
    (x.calculate_metrics).state = x.state ∧
    (x.calculate_metrics).current_burst_index = x.current_burst_index ∧
    (x.calculate_metrics).completion_time = x.completion_time ∧
    (x.calculate_metrics).burst_sequence = x.burst_sequence ∧
    (x.calculate_metrics).remaining_time = x.remaining_time := by
  unfold Process.calculate_metrics
  dsimp only
  split <;> exact ⟨rfl, rfl, rfl, rfl, rfl, rfl⟩

/-- C5: (a) when the active request of a device completes during an
`execute_step` call — its remaining duration reaching zero during sub-tick
`now + remaining - 1` — the completion callback is invoked with the owning
process and that sub-tick plus one; (b) the same holds when the request is
popped from the device queue at the start of the call; (c) the completion
callback (`handle_io_completion`) advances the process's cursor past the
I/O burst, and moves the process to READY when bursts remain and otherwise
to TERMINATED with `completion_tick` equal to the callback time.  The
hypothesis `hrem` is the run invariant that a process past its last burst
has no remaining CPU time. -/
theorem C5_io_completion {π : Type} :
    (∀ (dev : IODevice) (quantum now : Int) (r : IORequest),
      dev.current_request = some r →
      0 < r.burst.remaining_time →
      (r.burst.remaining_time ≤ quantum ∨ quantum ≤ 0) →
      (dev.execute_step quantum now).2
        = some (r.pid, (now + r.burst.remaining_time - 1) + 1)) ∧
    (∀ (dev : IODevice) (quantum now : Int) (r : IORequest) (rest : List IORequest),
      dev.current_request = none →
      dev.queue = r :: rest →
      0 < r.burst.remaining_time →
      (r.burst.remaining_time ≤ quantum ∨ quantum ≤ 0) →
      (dev.execute_step quantum now).2
        = some (r.pid, (now + r.burst.remaining_time - 1) + 1)) ∧
    (∀ (s : CSState π) (pid t : Int) (p : Process),
      arenaFind s.procs pid = some p →
      p.current_burst_index < p.burst_sequence.length →
      (p.current_burst_index + 1 ≥ p.burst_sequence.length → p.remaining_time ≤ 0) →
      ∀ q, arenaFind (handleIoCompletion s pid t).procs pid = some q →
        q.current_burst_index = p.current_burst_index + 1 ∧
        (q.has_more_bursts = true → q.state = ProcessState.READY) ∧
        (q.has_more_bursts = false →
          q.state = ProcessState.TERMINATED ∧ q.completion_time = t)) := by
  refine ⟨?_, ?_, ?_⟩
  · intro dev quantum now r hcur hpos hle
    obtain ⟨he1, he2, he3⟩ := ioRequest_execute_complete r quantum now hpos hle
    unfold IODevice.execute_step
    simp [hcur, he1, he2, he3]
  · intro dev quantum now r rest hcur hqueue hpos hle
    obtain ⟨he1, he2, he3⟩ := ioRequest_execute_complete r quantum now hpos hle
    unfold IODevice.execute_step
    simp [hcur, hqueue, he1, he2, he3]
  · intro s pid t p hp hcur hrem q hq
    have hppid : p.pid = pid := by simpa using List.find?_some hp
    rcases hbt : p.get_current_burst with _ | b
    · exfalso
      have hnone := hbt
      unfold Process.get_current_burst at hnone
      rw [List.get?_eq_none] at hnone
      omega
    · by_cases hio : (b.type == BurstType.io) = true
      · simp only [handleIoCompletion, hp, hbt, hio, if_true] at hq
        set b0 : Burst := { b with remaining_time := 0 } with hb0
        have hlt1 : ({ p with burst_sequence := p.burst_sequence.set p.current_burst_index b0 } : Process).current_burst_index < ({ p with burst_sequence := p.burst_sequence.set p.current_burst_index b0 } : Process).burst_sequence.length := by
          show p.current_burst_index < (p.burst_sequence.set p.current_burst_index b0).length
          rw [List.length_set]
          exact hcur
        have hadv : ({ p with burst_sequence := p.burst_sequence.set p.current_burst_index b0 } : Process).advance_to_next_burst = { p with burst_sequence := p.burst_sequence.set p.current_burst_index b0, current_burst_index := p.current_burst_index + 1 } := by
          unfold Process.advance_to_next_burst
          rw [if_pos hlt1]
        rw [hadv] at hq
        split at hq
        · rename_i hcomp
          dsimp only at hq
          rw [arenaFind_arenaUpdate s.procs pid _ ?hf] at hq
          case hf =>
            intro r hr
            dsimp only
            rw [(calculate_metrics_fields _).1]
            show p.pid = r.pid
            rw [hppid, hr]
          rw [hp] at hq
          simp only [Option.map_some'] at hq
          injection hq with hq
          subst hq
          refine ⟨?_, ?_, ?_⟩
          · dsimp only
            rw [(calculate_metrics_fields _).2.2.1]
          · intro hm
            exfalso
            simp only [Process.has_more_bursts] at hm
            dsimp only at hm
            rw [(calculate_metrics_fields _).2.2.1, (calculate_metrics_fields _).2.2.2.2.1] at hm
            simp only [List.length_set, decide_eq_true_eq] at hm
            simp only [Process.is_completed] at hcomp
            dsimp only at hcomp
            simp only [List.length_set, Bool.and_eq_true, decide_eq_true_eq] at hcomp
            omega
          · intro hm
            constructor
            · rfl
            · dsimp only
              rw [(calculate_metrics_fields _).2.2.2.1]
        · rename_i hcomp
          rw [requestPreemption_procs] at hq
          dsimp only at hq
          rw [arenaFind_arenaUpdate s.procs pid _ ?hf2] at hq
          case hf2 =>
            intro r hr
            dsimp only
            show p.pid = r.pid
            rw [hppid, hr]
          rw [hp] at hq
          simp only [Option.map_some'] at hq
          injection hq with hq
          subst hq
          refine ⟨rfl, fun _ => rfl, ?_⟩
          intro hm
          exfalso
          simp only [Process.has_more_bursts] at hm
          dsimp only at hm
          simp only [List.length_set, decide_eq_false_iff_not] at hm
          simp only [Process.is_completed] at hcomp
          dsimp only at hcomp
          simp only [List.length_set, Bool.and_eq_true, decide_eq_true_eq] at hcomp
          have hle : p.current_burst_index + 1 >= p.burst_sequence.length := by omega
          have hrem2 := hrem hle
          apply hcomp
          refine ⟨hle, ?_⟩
          simp [hrem2]
      · have hio2 : (b.type == BurstType.io) = false := by
          simpa using hio
        simp only [handleIoCompletion, hp, hbt, hio2, Bool.false_eq_true, if_false] at hq
        have hadv : p.advance_to_next_burst
            = { p with current_burst_index := p.current_burst_index + 1 } := by
          unfold Process.advance_to_next_burst
          rw [if_pos hcur]
        rw [hadv] at hq
        split at hq
        · rename_i hcomp
          dsimp only at hq
          rw [arenaFind_arenaUpdate s.procs pid _ ?hf3] at hq
          case hf3 =>
            intro r hr
            dsimp only
            rw [(calculate_metrics_fields _).1]
            show p.pid = r.pid
            rw [hppid, hr]
          rw [hp] at hq
          simp only [Option.map_some'] at hq
          injection hq with hq
          subst hq
          refine ⟨?_, ?_, ?_⟩
          · dsimp only
            rw [(calculate_metrics_fields _).2.2.1]
          · intro hm
            exfalso
            simp only [Process.has_more_bursts] at hm
            dsimp only at hm
            rw [(calculate_metrics_fields _).2.2.1, (calculate_metrics_fields _).2.2.2.2.1] at hm
            simp only [decide_eq_true_eq] at hm
            simp only [Process.is_completed] at hcomp
            dsimp only at hcomp
            simp only [Bool.and_eq_true, decide_eq_true_eq] at hcomp
            omega
          · intro hm
            constructor
            · rfl
            · dsimp only
              rw [(calculate_metrics_fields _).2.2.2.1]
        · rename_i hcomp
          rw [requestPreemption_procs] at hq
          dsimp only at hq
          rw [arenaFind_arenaUpdate s.procs pid _ ?hf4] at hq
          case hf4 =>
            intro r hr
            dsimp only
            show p.pid = r.pid
            rw [hppid, hr]
          rw [hp] at hq
          simp only [Option.map_some'] at hq
          injection hq with hq
          subst hq
          refine ⟨rfl, fun _ => rfl, ?_⟩
          intro hm
          exfalso
          simp only [Process.has_more_bursts] at hm
          dsimp only at hm
          simp only [decide_eq_false_iff_not] at hm
          simp only [Process.is_completed] at hcomp
          dsimp only at hcomp
          simp only [Bool.and_eq_true, decide_eq_true_eq] at hcomp
          have hle : p.current_burst_index + 1 >= p.burst_sequence.length := by omega
          have hrem2 := hrem hle
          apply hcomp
          refine ⟨hle, ?_⟩
          simp [hrem2]


/-- C5, witness for `C5_io_completion` at a concrete device with a 3-tick
request (callback fires with time 10+3 = completion tick 12 plus one) and
at `csC5`, whose process terminates through the callback. -/
theorem C5_io_completion_witness :
    devC5.current_request = some reqC5 ∧
    (0:Int) < reqC5.burst.remaining_time ∧
    (devC5.execute_step 5 10).2 = some (reqC5.pid, (10 + reqC5.burst.remaining_time - 1) + 1) ∧
    (devC5b.execute_step 5 10).2 = some (reqC5.pid, (10 + reqC5.burst.remaining_time - 1) + 1) ∧
    (qC5.current_burst_index = procC5.current_burst_index + 1 ∧
      (qC5.has_more_bursts = true → qC5.state = ProcessState.READY) ∧
      (qC5.has_more_bursts = false →
        qC5.state = ProcessState.TERMINATED ∧ qC5.completion_time = 3)) :=
  ⟨by decide, by decide,
   (C5_io_completion (π := Unit)).1 devC5 5 10 reqC5 (by decide) (by decide) (by decide),
   (C5_io_completion (π := Unit)).2.1 devC5b 5 10 reqC5 [] (by decide) (by decide)
     (by decide) (by decide),
   (C5_io_completion (π := Unit)).2.2 csC5 1 3 procC5 (by decide) (by decide) (by decide)
     qC5 (by decide)⟩

/-- C7, counterexample.  At `csC7` the ready queue peeks the TERMINATED
process 1 during dispatch, yet the run does not abort: `execute_step`
returns normally, silently removes the stale entry, dispatches process 2
and runs it to completion (the clock advances by its 2-tick burst). -/
theorem C7_counterexample :
    csC7.ready_queue.head? = some 1 ∧
    (lookupProc csC7.procs 1).state = ProcessState.TERMINATED ∧
    (execStep lruPolicy 0 csC7).toOption = some csC7post ∧
    csC7post.current_time = csC7.current_time + 2 ∧
    (lookupProc csC7post.procs 2).state = ProcessState.TERMINATED := by
  decide

/-- C7, amended: `execute_step` never aborts — every call returns
`Except.ok` (the source has no fatal path) — and a peeked TERMINATED
process is simply removed from the ready queue, dispatch continuing with
the remaining entries. -/
theorem C7_no_abort {π : Type} (pol : Policy π) (quantum : Int) (s : CSState π) :
    (∃ s2, execStep pol quantum s = Except.ok s2) ∧
    (∀ (arena : List Process) (pid : Int) (rest : List Int) (p : Process),
      arenaFind arena pid = some p → p.state = ProcessState.TERMINATED →
      skipStale arena (pid :: rest) = skipStale arena rest) := by
  constructor
  · exact ⟨execStepCore pol quantum s, rfl⟩
  · intro arena pid rest p hp hstate
    simp [skipStale, hp, hstate]

/-- C7, witness for `C7_no_abort` at `csC7` (its queue head is a
TERMINATED process). -/
theorem C7_no_abort_witness :
    (∃ s2, execStep lruPolicy 0 csC7 = Except.ok s2) ∧
    (arenaFind csC7.procs 1 = some procC7t ∧
      procC7t.state = ProcessState.TERMINATED ∧
      skipStale csC7.procs (1 :: [2]) = skipStale csC7.procs [2]) :=
  ⟨(C7_no_abort lruPolicy 0 csC7).1,
   by decide, by decide,
   (C7_no_abort lruPolicy 0 csC7).2 csC7.procs 1 [2] procC7t (by decide) (by decide)⟩

theorem csLog_ct {π : Type} (s : CSState π) (e : String) (p : Option Process) (c : Bool) :
    (csLog s e p c).current_time = s.current_time := rfl

theorem csLog_cs {π : Type} (s : CSState π) (e : String) (p : Option Process) (c : Bool) :
    (csLog s e p c).context_switches = s.context_switches := rfl

theorem csLog_mm {π : Type} (s : CSState π) (e : String) (p : Option Process) (c : Bool) :
    (csLog s e p c).mm = s.mm := rfl

theorem requestPreemption_ct {π : Type} (s : CSState π) (pid : Int) :
    (requestPreemptionIfNeeded s pid).current_time = s.current_time := by
  unfold requestPreemptionIfNeeded
  repeat' split
  all_goals rfl

theorem requestPreemption_cs {π : Type} (s : CSState π) (pid : Int) :
    (requestPreemptionIfNeeded s pid).context_switches = s.context_switches := by
  unfold requestPreemptionIfNeeded
  repeat' split
  all_goals rfl

theorem requestPreemption_mm {π : Type} (s : CSState π) (pid : Int) :
    (requestPreemptionIfNeeded s pid).mm = s.mm := by
  unfold requestPreemptionIfNeeded
  repeat' split
  all_goals rfl

theorem requestPreemption_ev {π : Type} (s : CSState π) (pid : Int) :
    (requestPreemptionIfNeeded s pid).cpu_events = s.cpu_events := by
  unfold requestPreemptionIfNeeded
  repeat' split
  all_goals rfl

theorem handleIoCompletion_ct {π : Type} (s : CSState π) (pid t : Int) :
    (handleIoCompletion s pid t).current_time = s.current_time := by
  unfold handleIoCompletion
  repeat' first
  | rfl
  | split
  | dsimp only
  all_goals exact requestPreemption_ct _ _

theorem handleIoCompletion_cs {π : Type} (s : CSState π) (pid t : Int) :
    (handleIoCompletion s pid t).context_switches = s.context_switches := by
  unfold handleIoCompletion
  repeat' first
  | rfl
  | split
  | dsimp only
  all_goals exact requestPreemption_cs _ _

theorem handleIoCompletion_mm {π : Type} (s : CSState π) (pid t : Int) :
    (handleIoCompletion s pid t).mm = s.mm := by
  unfold handleIoCompletion
  repeat' first
  | rfl
  | split
  | dsimp only
  all_goals exact requestPreemption_mm _ _

theorem handleIoCompletion_ev {π : Type} (s : CSState π) (pid t : Int) :
    (handleIoCompletion s pid t).cpu_events = s.cpu_events := by
  unfold handleIoCompletion
  repeat' first
  | rfl
  | split
  | dsimp only
  all_goals exact requestPreemption_ev _ _

theorem handleMemoryReady_ct {π : Type} (s : CSState π) (pid : Int) :
    (handleMemoryReady s pid).current_time = s.current_time := by
  unfold handleMemoryReady
  repeat' first
  | rfl
  | split
  | dsimp only
  all_goals exact requestPreemption_ct _ _

theorem handleMemoryReady_cs {π : Type} (s : CSState π) (pid : Int) :
    (handleMemoryReady s pid).context_switches = s.context_switches := by
  unfold handleMemoryReady
  repeat' first
  | rfl
  | split
  | dsimp only
  all_goals exact requestPreemption_cs _ _

theorem handleMemoryReady_mm {π : Type} (s : CSState π) (pid : Int) :
    (handleMemoryReady s pid).mm = s.mm := by
  unfold handleMemoryReady
  repeat' first
  | rfl
  | split
  | dsimp only
  all_goals exact requestPreemption_mm _ _

theorem handleMemoryReady_ev {π : Type} (s : CSState π) (pid : Int) :
    (handleMemoryReady s pid).cpu_events = s.cpu_events := by
  unfold handleMemoryReady
  repeat' first
  | rfl
  | split
  | dsimp only
  all_goals exact requestPreemption_ev _ _

theorem execDevice_ct {π : Type} (q t : Int) (acc : CSState π × List IODevice)
    (dev : IODevice) : (execDevice q t acc dev).1.current_time = acc.1.current_time := by
  unfold execDevice
  repeat' first
  | rfl
  | split
  | dsimp only
  all_goals exact handleIoCompletion_ct _ _ _

theorem execDevice_cs {π : Type} (q t : Int) (acc : CSState π × List IODevice)
    (dev : IODevice) :
    (execDevice q t acc dev).1.context_switches = acc.1.context_switches := by
  unfold execDevice
  repeat' first
  | rfl
  | split
  | dsimp only
  all_goals exact handleIoCompletion_cs _ _ _

theorem execDevice_mm {π : Type} (q t : Int) (acc : CSState π × List IODevice)
    (dev : IODevice) : (execDevice q t acc dev).1.mm = acc.1.mm := by
  unfold execDevice
  repeat' first
  | rfl
  | split
  | dsimp only
  all_goals exact handleIoCompletion_mm _ _ _

theorem execDevice_ev {π : Type} (q t : Int) (acc : CSState π × List IODevice)
    (dev : IODevice) : (execDevice q t acc dev).1.cpu_events = acc.1.cpu_events := by
  unfold execDevice
  repeat' first
  | rfl
  | split
  | dsimp only
  all_goals exact handleIoCompletion_ev _ _ _

theorem ioFold_keeps {π : Type} (q t : Int) (l : List IODevice) :
    ∀ (acc : CSState π × List IODevice),
    (l.foldl (execDevice q t) acc).1.current_time = acc.1.current_time ∧
    (l.foldl (execDevice q t) acc).1.context_switches = acc.1.context_switches ∧
    (l.foldl (execDevice q t) acc).1.mm = acc.1.mm ∧
    (l.foldl (execDevice q t) acc).1.cpu_events = acc.1.cpu_events := by
  induction l with
  | nil => intro acc; exact ⟨rfl, rfl, rfl, rfl⟩
  | cons d rest ih =>
    intro acc
    rw [List.foldl_cons]
    obtain ⟨h1, h2, h3, h4⟩ := ih (execDevice q t acc d)
    exact ⟨h1.trans (execDevice_ct q t acc d),
           h2.trans (execDevice_cs q t acc d),
           h3.trans (execDevice_mm q t acc d),
           h4.trans (execDevice_ev q t acc d)⟩

theorem executeAllDevices_ct {π : Type} (q t : Int) (s : CSState π) :
    (executeAllDevices q t s).current_time = s.current_time :=
  (ioFold_keeps q t s.devices (s, [])).1

theorem executeAllDevices_cs {π : Type} (q t : Int) (s : CSState π) :
    (executeAllDevices q t s).context_switches = s.context_switches :=
  (ioFold_keeps q t s.devices (s, [])).2.1

theorem executeAllDevices_mm {π : Type} (q t : Int) (s : CSState π) :
    (executeAllDevices q t s).mm = s.mm :=
  (ioFold_keeps q t s.devices (s, [])).2.2.1

theorem executeAllDevices_ev {π : Type} (q t : Int) (s : CSState π) :
    (executeAllDevices q t s).cpu_events = s.cpu_events :=
  (ioFold_keeps q t s.devices (s, [])).2.2.2

theorem advanceIoDevices_ct {π : Type} (ts t : Int) (s : CSState π) :
    (advanceIoDevices ts t s).current_time = s.current_time := by
  unfold advanceIoDevices
  split
  · rfl
  · exact executeAllDevices_ct _ _ _

theorem advanceIoDevices_cs {π : Type} (ts t : Int) (s : CSState π) :
    (advanceIoDevices ts t s).context_switches = s.context_switches := by
  unfold advanceIoDevices
  split
  · rfl
  · exact executeAllDevices_cs _ _ _

theorem advanceIoDevices_mm {π : Type} (ts t : Int) (s : CSState π) :
    (advanceIoDevices ts t s).mm = s.mm := by
  unfold advanceIoDevices
  split
  · rfl
  · exact executeAllDevices_mm _ _ _

theorem advanceIoDevices_ev {π : Type} (ts t : Int) (s : CSState π) :
    (advanceIoDevices ts t s).cpu_events = s.cpu_events := by
  unfold advanceIoDevices
  split
  · rfl
  · exact executeAllDevices_ev _ _ _

theorem registerProcess_tpf (mm : MMState) (pid : Int) :
    (registerProcess mm pid).total_page_faults = mm.total_page_faults := rfl

theorem evictFrame_tpf {π : Type} (pol : Policy π) (ps : π) (mm : MMState)
    (arena : List Process) (fi : Int) :
    (evictFrame pol ps mm arena fi).1.total_page_faults = mm.total_page_faults := by
  unfold evictFrame
  repeat' first
  | rfl
  | split
  | dsimp only

theorem reserveFrame_tpf {π : Type} (pol : Policy π) (ps : π) (mm : MMState)
    (arena : List Process) (task : PageLoadTask) :
    (reserveFrameForTask pol ps mm arena task).2.1.total_page_faults =
      mm.total_page_faults := by
  unfold reserveFrameForTask
  repeat' first
  | rfl
  | split
  | dsimp only
  all_goals exact evictFrame_tpf _ _ _ _ _

theorem startNext_tpf {π : Type} (pol : Policy π) (ps : π) (mm : MMState)
    (arena : List Process) (t : Int) :
    (startNextTaskIfPossible pol ps mm arena t).1.total_page_faults =
      mm.total_page_faults := by
  unfold startNextTaskIfPossible
  repeat' first
  | rfl
  | split
  | dsimp only
  all_goals exact reserveFrame_tpf _ _ _ _ _

theorem completeActive_tpf {π : Type} (pol : Policy π) (ps : π) (mm : MMState)
    (arena : List Process) (t : Int) :
    (completeActiveTask pol ps mm arena t).1.total_page_faults =
      mm.total_page_faults := by
  unfold completeActiveTask
  repeat' first
  | rfl
  | split
  | dsimp only

theorem mmSubTick_tpf {π : Type} (pol : Policy π) (ps : π) (mm : MMState)
    (arena : List Process) (t : Int) :
    (mmSubTick pol ps mm arena t).1.total_page_faults = mm.total_page_faults := by
  unfold mmSubTick
  repeat' first
  | rfl
  | split
  | dsimp only
  all_goals simp only [startNext_tpf, completeActive_tpf]

theorem unregister_tpf {π : Type} (pol : Policy π) (ps : π) (mm : MMState) (pid : Int) :
    (unregisterProcess pol ps mm pid).1.total_page_faults = mm.total_page_faults := by
  unfold unregisterProcess
  repeat' first
  | rfl
  | split
  | dsimp only

theorem faultStep_ct {π : Type} (pol : Policy π) (t : Int) (s : CSState π) :
    (faultStep pol t s).current_time = s.current_time := by
  unfold faultStep
  repeat' first
  | rfl
  | split
  | dsimp only
  all_goals exact handleMemoryReady_ct _ _

theorem faultStep_cs {π : Type} (pol : Policy π) (t : Int) (s : CSState π) :
    (faultStep pol t s).context_switches = s.context_switches := by
  unfold faultStep
  repeat' first
  | rfl
  | split
  | dsimp only
  all_goals exact handleMemoryReady_cs _ _

theorem faultStep_ev {π : Type} (pol : Policy π) (t : Int) (s : CSState π) :
    (faultStep pol t s).cpu_events = s.cpu_events := by
  unfold faultStep
  repeat' first
  | rfl
  | split
  | dsimp only
  all_goals exact handleMemoryReady_ev _ _

theorem faultStep_mm {π : Type} (pol : Policy π) (t : Int) (s : CSState π) :
    (faultStep pol t s).mm = (mmSubTick pol s.ps s.mm s.procs t).1 := by
  unfold faultStep
  repeat' first
  | rfl
  | split
  | dsimp only
  all_goals exact handleMemoryReady_mm _ _

theorem faultStep_tpf {π : Type} (pol : Policy π) (t : Int) (s : CSState π) :
    (faultStep pol t s).mm.total_page_faults = s.mm.total_page_faults := by
  rw [faultStep_mm, mmSubTick_tpf]

theorem advanceFaultQueueLoop_keeps {π : Type} (pol : Policy π) (k : Nat) :
    ∀ (t : Int) (s : CSState π),
    (advanceFaultQueueLoop pol k t s).current_time = s.current_time ∧
    (advanceFaultQueueLoop pol k t s).context_switches = s.context_switches ∧
    (advanceFaultQueueLoop pol k t s).cpu_events = s.cpu_events ∧
    (advanceFaultQueueLoop pol k t s).mm.total_page_faults =
      s.mm.total_page_faults := by
  induction k with
  | zero => intro t s; exact ⟨rfl, rfl, rfl, rfl⟩
  | succ n ih =>
    intro t s
    obtain ⟨h1, h2, h3, h4⟩ := ih (t + 1) (faultStep pol t s)
    exact ⟨h1.trans (faultStep_ct pol t s),
           h2.trans (faultStep_cs pol t s),
           h3.trans (faultStep_ev pol t s),
           h4.trans (faultStep_tpf pol t s)⟩

theorem advanceMemoryManager_ct {π : Type} (pol : Policy π) (ts t : Int) (s : CSState π) :
    (advanceMemoryManager pol ts t s).current_time = s.current_time := by
  unfold advanceMemoryManager
  split
  · rfl
  · exact (advanceFaultQueueLoop_keeps pol ts.toNat t s).1

theorem advanceMemoryManager_cs {π : Type} (pol : Policy π) (ts t : Int) (s : CSState π) :
    (advanceMemoryManager pol ts t s).context_switches = s.context_switches := by
  unfold advanceMemoryManager
  split
  · rfl
  · exact (advanceFaultQueueLoop_keeps pol ts.toNat t s).2.1

theorem advanceMemoryManager_ev {π : Type} (pol : Policy π) (ts t : Int) (s : CSState π) :
    (advanceMemoryManager pol ts t s).cpu_events = s.cpu_events := by
  unfold advanceMemoryManager
  split
  · rfl
  · exact (advanceFaultQueueLoop_keeps pol ts.toNat t s).2.2.1

theorem advanceMemoryManager_tpf {π : Type} (pol : Policy π) (ts t : Int) (s : CSState π) :
    (advanceMemoryManager pol ts t s).mm.total_page_faults =
      s.mm.total_page_faults := by
  unfold advanceMemoryManager
  split
  · rfl
  · exact (advanceFaultQueueLoop_keeps pol ts.toNat t s).2.2.2

theorem advanceMemoryManager_one_mm {π : Type} (pol : Policy π) (t : Int) (s : CSState π) :
    (advanceMemoryManager pol 1 t s).mm =
      (mmSubTick pol s.ps s.mm s.procs t).1 := by
  unfold advanceMemoryManager
  rw [if_neg (by decide)]
  show (advanceFaultQueueLoop pol 1 t s).mm = _
  show (advanceFaultQueueLoop pol 0 (t + 1) (faultStep pol t s)).mm = _
  show (faultStep pol t s).mm = _
  exact faultStep_mm pol t s

theorem idleStep_ct {π : Type} (pol : Policy π) (s : CSState π) :
    (idleStep pol s).current_time = s.current_time + 1 := by
  have h : (idleStep pol s).current_time =
      (csLog (advanceIoDevices 1 s.current_time
        (advanceMemoryManager pol 1 s.current_time s)) "IDLE" none false).current_time + 1 := rfl
  rw [h, csLog_ct, advanceIoDevices_ct, advanceMemoryManager_ct]

theorem idleStep_cs {π : Type} (pol : Policy π) (s : CSState π) :
    (idleStep pol s).context_switches = s.context_switches := by
  have h : (idleStep pol s).context_switches =
      (csLog (advanceIoDevices 1 s.current_time
        (advanceMemoryManager pol 1 s.current_time s)) "IDLE" none false).context_switches := rfl
  rw [h, csLog_cs, advanceIoDevices_cs, advanceMemoryManager_cs]

theorem idleStep_mm {π : Type} (pol : Policy π) (s : CSState π) :
    (idleStep pol s).mm = (mmSubTick pol s.ps s.mm s.procs s.current_time).1 := by
  have h : (idleStep pol s).mm =
      (advanceIoDevices 1 s.current_time
        (advanceMemoryManager pol 1 s.current_time s)).mm := rfl
  rw [h, advanceIoDevices_mm, advanceMemoryManager_one_mm]

theorem idleStep_tpf {π : Type} (pol : Policy π) (s : CSState π) :
    (idleStep pol s).mm.total_page_faults = s.mm.total_page_faults := by
  rw [idleStep_mm, mmSubTick_tpf]

theorem idleStep_events {π : Type} (pol : Policy π) (s : CSState π) :
    ∃ ev : CpuEvent, (idleStep pol s).cpu_events = s.cpu_events ++ [ev] ∧
      ev.event = "IDLE" := by
  refine ⟨{ tick := (advanceIoDevices 1 s.current_time
              (advanceMemoryManager pol 1 s.current_time s)).current_time,
            event := "IDLE", pid := -1, name := "", remaining := 0,
            ready_queue := (advanceIoDevices 1 s.current_time
              (advanceMemoryManager pol 1 s.current_time s)).ready_queue.length,
            context_switch := false }, ?_, rfl⟩
  have h : (idleStep pol s).cpu_events =
      (advanceIoDevices 1 s.current_time
        (advanceMemoryManager pol 1 s.current_time s)).cpu_events ++
      [{ tick := (advanceIoDevices 1 s.current_time
            (advanceMemoryManager pol 1 s.current_time s)).current_time,
          event := "IDLE", pid := -1, name := "", remaining := 0,
          ready_queue := (advanceIoDevices 1 s.current_time
            (advanceMemoryManager pol 1 s.current_time s)).ready_queue.length,
          context_switch := false }] := rfl
  rw [h, advanceIoDevices_ev, advanceMemoryManager_ev]

theorem drainStep_ct {π : Type} (s : CSState π) :
    (drainStep s).current_time = s.current_time + 1 := by
  have h : (drainStep s).current_time =
      (advanceIoDevices 1 s.current_time s).current_time + 1 := rfl
  rw [h, advanceIoDevices_ct]

theorem drainStep_mm {π : Type} (s : CSState π) : (drainStep s).mm = s.mm := by
  have h : (drainStep s).mm = (advanceIoDevices 1 s.current_time s).mm := rfl
  rw [h, advanceIoDevices_mm]

theorem drainStep_ev {π : Type} (s : CSState π) :
    (drainStep s).cpu_events = s.cpu_events := by
  have h : (drainStep s).cpu_events =
      (advanceIoDevices 1 s.current_time s).cpu_events := rfl
  rw [h, advanceIoDevices_ev]

theorem drainStep_cs {π : Type} (s : CSState π) :
    (drainStep s).context_switches = s.context_switches := by
  have h : (drainStep s).context_switches =
      (advanceIoDevices 1 s.current_time s).context_switches := rfl
  rw [h, advanceIoDevices_cs]

theorem submitIoRequest_ct {π : Type} (s : CSState π) (r : IORequest) :
    (submitIoRequest s r).current_time = s.current_time := by
  unfold submitIoRequest
  repeat' first
  | rfl
  | split
  | dsimp only

theorem submitIoRequest_cs {π : Type} (s : CSState π) (r : IORequest) :
    (submitIoRequest s r).context_switches = s.context_switches := by
  unfold submitIoRequest
  repeat' first
  | rfl
  | split
  | dsimp only

theorem submitIoRequest_mm {π : Type} (s : CSState π) (r : IORequest) :
    (submitIoRequest s r).mm = s.mm := by
  unfold submitIoRequest
  repeat' first
  | rfl
  | split
  | dsimp only

theorem memFailStep_ct {π : Type} (s : CSState π) (pid : Int) :
    (memFailStep s pid).current_time = s.current_time := rfl

theorem memFailStep_cs {π : Type} (s : CSState π) (pid : Int) :
    (memFailStep s pid).context_switches = s.context_switches := rfl

theorem memFailStep_mm {π : Type} (s : CSState π) (pid : Int) :
    (memFailStep s pid).mm = s.mm := rfl

theorem ioDispatchStep_ct {π : Type} (s : CSState π) (pid : Int) (b : Option Burst) :
    (ioDispatchStep s pid b).current_time = s.current_time := by
  unfold ioDispatchStep
  repeat' first
  | rfl
  | split
  | dsimp only
  all_goals exact (submitIoRequest_ct _ _).trans rfl

theorem ioDispatchStep_cs {π : Type} (s : CSState π) (pid : Int) (b : Option Burst) :
    (ioDispatchStep s pid b).context_switches = s.context_switches := by
  unfold ioDispatchStep
  repeat' first
  | rfl
  | split
  | dsimp only
  all_goals exact (submitIoRequest_cs _ _).trans rfl

theorem ioDispatchStep_mm {π : Type} (s : CSState π) (pid : Int) (b : Option Burst) :
    (ioDispatchStep s pid b).mm = s.mm := by
  unfold ioDispatchStep
  repeat' first
  | rfl
  | split
  | dsimp only
  all_goals exact (submitIoRequest_mm _ _).trans rfl

theorem completeTail_ct {π : Type} (pol : Policy π) (s : CSState π) (pid : Int) :
    (completeTail pol s pid).current_time = s.current_time := rfl

theorem completeTail_cs {π : Type} (pol : Policy π) (s : CSState π) (pid : Int) :
    (completeTail pol s pid).context_switches = s.context_switches := rfl

theorem completeTail_tpf {π : Type} (pol : Policy π) (s : CSState π) (pid : Int) :
    (completeTail pol s pid).mm.total_page_faults = s.mm.total_page_faults := by
  have h : (completeTail pol s pid).mm =
      (unregisterProcess pol s.ps s.mm pid).1 := rfl
  rw [h, unregister_tpf]

theorem preemptTail_ct {π : Type} (s : CSState π) (pid : Int) :
    (preemptTail s pid).current_time = s.current_time := rfl

theorem preemptTail_cs {π : Type} (s : CSState π) (pid : Int) :
    (preemptTail s pid).context_switches = s.context_switches := rfl

theorem preemptTail_mm {π : Type} (s : CSState π) (pid : Int) :
    (preemptTail s pid).mm = s.mm := rfl

theorem requeueTail_ct {π : Type} (s : CSState π) (pid : Int) :
    (requeueTail s pid).current_time = s.current_time := by
  unfold requeueTail
  repeat' first
  | rfl
  | split
  | dsimp only

theorem requeueTail_cs {π : Type} (s : CSState π) (pid : Int) :
    (requeueTail s pid).context_switches = s.context_switches := by
  unfold requeueTail
  repeat' first
  | rfl
  | split
  | dsimp only

theorem requeueTail_mm {π : Type} (s : CSState π) (pid : Int) :
    (requeueTail s pid).mm = s.mm := by
  unfold requeueTail
  repeat' first
  | rfl
  | split
  | dsimp only

theorem execRunning_ct {π : Type} (q : Int) (s : CSState π) (pid : Int) :
    (execRunning q s pid).2.current_time = s.current_time := by
  unfold execRunning
  repeat' first
  | rfl
  | split
  | dsimp only

theorem execRunning_cs {π : Type} (q : Int) (s : CSState π) (pid : Int) :
    (execRunning q s pid).2.context_switches = s.context_switches := by
  unfold execRunning
  repeat' first
  | rfl
  | split
  | dsimp only

theorem execRunning_mm {π : Type} (q : Int) (s : CSState π) (pid : Int) :
    (execRunning q s pid).2.mm = s.mm := by
  unfold execRunning
  repeat' first
  | rfl
  | split
  | dsimp only

theorem dispatchPrep_ct {π : Type} (s : CSState π) (pid : Int) (c : Bool) :
    (dispatchPrep s pid c).2.current_time = s.current_time := by
  cases c <;> rfl

theorem dispatchPrep_cs {π : Type} (s : CSState π) (pid : Int) (c : Bool) :
    s.context_switches ≤ (dispatchPrep s pid c).2.context_switches := by
  cases c
  · exact le_of_eq rfl
  · show s.context_switches ≤ s.context_switches + 1
    omega

theorem dispatchPrep_mm {π : Type} (s : CSState π) (pid : Int) (c : Bool) :
    (dispatchPrep s pid c).2.mm =
      (prepareProcessForCpu s.mm s.procs pid s.current_time).2.1 := by
  cases c <;> rfl

theorem dispatchPrep_procs {π : Type} (s : CSState π) (pid : Int) (c : Bool) :
    (dispatchPrep s pid c).2.procs =
      (prepareProcessForCpu s.mm s.procs pid s.current_time).2.2 := by
  cases c <;> rfl

theorem afterExec_ct {π : Type} (pol : Policy π) (s : CSState π) (pid : Int)
    (c : Bool) (te t0 : Int) :
    (afterExec pol s pid c te t0).current_time = s.current_time + te := by
  unfold afterExec
  repeat' first
  | split
  | dsimp only
  all_goals first
  | (rw [completeTail_ct, advanceIoDevices_ct, advanceMemoryManager_ct, csLog_ct])
  | (rw [preemptTail_ct, advanceIoDevices_ct, advanceMemoryManager_ct, csLog_ct])
  | (rw [requeueTail_ct, advanceIoDevices_ct, advanceMemoryManager_ct, csLog_ct])

theorem afterExec_cs {π : Type} (pol : Policy π) (s : CSState π) (pid : Int)
    (c : Bool) (te t0 : Int) :
    (afterExec pol s pid c te t0).context_switches = s.context_switches := by
  unfold afterExec
  repeat' first
  | split
  | dsimp only
  all_goals first
  | (rw [completeTail_cs, advanceIoDevices_cs, advanceMemoryManager_cs, csLog_cs])
  | (rw [preemptTail_cs, advanceIoDevices_cs, advanceMemoryManager_cs, csLog_cs])
  | (rw [requeueTail_cs, advanceIoDevices_cs, advanceMemoryManager_cs, csLog_cs])

theorem afterExec_tpf {π : Type} (pol : Policy π) (s : CSState π) (pid : Int)
    (c : Bool) (te t0 : Int) :
    (afterExec pol s pid c te t0).mm.total_page_faults =
      s.mm.total_page_faults := by
  unfold afterExec
  repeat' first
  | split
  | dsimp only
  all_goals first
  | (rw [completeTail_tpf, advanceIoDevices_mm, advanceMemoryManager_tpf, csLog_mm])
  | (rw [preemptTail_mm, advanceIoDevices_mm, advanceMemoryManager_tpf, csLog_mm])
  | (rw [requeueTail_mm, advanceIoDevices_mm, advanceMemoryManager_tpf, csLog_mm])

theorem arenaFind_mem (l : List Process) (pid : Int) (p : Process)
    (h : arenaFind l pid = some p) : p ∈ l :=
  List.mem_of_find?_eq_some h

theorem wf_arenaUpdate2 (l : List Process) (pid : Int) (f : Process → Process)
    (h : WfProcs l)
    (hf : ∀ p ∈ l, 0 ≤ (f p).remaining_time ∧
      ∀ b ∈ (f p).burst_sequence, 0 ≤ b.remaining_time) :
    WfProcs (arenaUpdate l pid f) := by
  intro q hq
  obtain ⟨p, hp, rfl⟩ := List.mem_map.1 hq
  split
  · exact hf p hp
  · exact h p hp

theorem wf_arenaUpdate (l : List Process) (pid : Int) (f : Process → Process)
    (hf : ∀ p, (f p).remaining_time = p.remaining_time ∧
      (f p).burst_sequence = p.burst_sequence)
    (h : WfProcs l) : WfProcs (arenaUpdate l pid f) := by
  refine wf_arenaUpdate2 l pid f h (fun p hp => ?_)
  obtain ⟨h1, h2⟩ := h p hp
  rw [(hf p).1, (hf p).2]
  exact ⟨h1, h2⟩

theorem wf_setRef (mm : MMState) (arena : List Process) (pid : Int) (r : Bool)
    (h : WfProcs arena) : WfProcs (setProcessPagesReferenced mm arena pid r) := by
  unfold setProcessPagesReferenced
  split
  · exact wf_arenaUpdate _ _ _ (fun p => ⟨rfl, rfl⟩) h
  · exact h

theorem wf_enqueueFold (pid t : Int) (l : List Int) :
    ∀ acc : MMState × List Process, WfProcs acc.2 →
      WfProcs (l.foldl (enqueueOne pid t) acc).2 := by
  induction l with
  | nil => intro acc h; exact h
  | cons g rest ih =>
    intro acc h
    rw [List.foldl_cons]
    exact ih _ (wf_arenaUpdate _ _ _ (fun p => ⟨rfl, rfl⟩) h)

theorem wf_enqueueMissing (mm : MMState) (arena : List Process) (pid : Int)
    (l : List Int) (t : Int) (h : WfProcs arena) :
    WfProcs (enqueueMissingPages mm arena pid l t).2 :=
  wf_enqueueFold pid t l (mm, arena) h

theorem wf_prepare (mm : MMState) (arena : List Process) (pid t : Int)
    (h : WfProcs arena) :
    WfProcs (prepareProcessForCpu mm arena pid t).2.2 := by
  unfold prepareProcessForCpu
  split
  · exact h
  · rename_i p0 hfind
    have hp0 := h p0 (arenaFind_mem _ _ _ hfind)
    dsimp only
    split
    · have hA : WfProcs (arenaUpdate arena pid (fun _ => allocateInitialMemory p0)) :=
        wf_arenaUpdate2 _ _ _ h (fun q hq => ⟨hp0.1, hp0.2⟩)
      split
      · exact wf_setRef _ _ _ _ hA
      · repeat' split
        all_goals first
        | exact hA
        | exact wf_enqueueMissing _ _ _ _ _ hA
    · split
      · exact wf_setRef _ _ _ _ h
      · repeat' split
        all_goals first
        | exact h
        | exact wf_enqueueMissing _ _ _ _ _ h

theorem wf_admitOne {π : Type} (s : CSState π) (pid : Int) (h : WfProcs s.procs) :
    WfProcs (admitOne s pid).procs := by
  unfold admitOne
  split
  · exact h
  · split
    · exact wf_arenaUpdate _ _ _ (fun p => ⟨rfl, rfl⟩)
        (wf_arenaUpdate _ _ _ (fun p => ⟨rfl, rfl⟩) h)
    · exact h

theorem wf_foldAdmit {π : Type} (l : List Int) :
    ∀ s : CSState π, WfProcs s.procs → WfProcs (l.foldl admitOne s).procs := by
  induction l with
  | nil => intro s h; exact h
  | cons a rest ih =>
    intro s h
    rw [List.foldl_cons]
    exact ih _ (wf_admitOne s a h)

theorem wf_addArrived {π : Type} (s : CSState π) (h : WfProcs s.procs) :
    WfProcs (addArrivedProcesses s).procs :=
  wf_foldAdmit _ s h

theorem execute_time_nonneg (p : Process) (q t : Int)
    (h1 : 0 ≤ p.remaining_time)
    (h2 : ∀ b ∈ p.burst_sequence, 0 ≤ b.remaining_time) :
    0 ≤ (p.execute q t).1 := by
  unfold Process.execute
  repeat' first
  | split
  | dsimp only
  all_goals first
  | exact le_refl 0
  | exact h1
  | exact h2 _ (List.get?_mem (by assumption))
  | exact le_min (le_of_lt (by assumption)) h1
  | exact le_min (le_of_lt (by assumption)) (h2 _ (List.get?_mem (by assumption)))

theorem execRunning_te {π : Type} (q : Int) (s : CSState π) (pid : Int)
    (h : WfProcs s.procs) : 0 ≤ (execRunning q s pid).1 := by
  unfold execRunning
  split
  · rename_i p hp
    obtain ⟨h1, h2⟩ := h p (arenaFind_mem _ _ _ hp)
    dsimp only
    exact execute_time_nonneg p q s.current_time h1 h2
  · exact le_refl 0

theorem enqueueFold_tpf (pid t : Int) (l : List Int) :
    ∀ acc : MMState × List Process,
      acc.1.total_page_faults ≤ (l.foldl (enqueueOne pid t) acc).1.total_page_faults := by
  induction l with
  | nil => intro acc; exact le_refl _
  | cons g rest ih =>
    intro acc
    rw [List.foldl_cons]
    refine le_trans ?_ (ih (enqueueOne pid t acc g))
    have h : (enqueueOne pid t acc g).1.total_page_faults =
        acc.1.total_page_faults + 1 := rfl
    rw [h]
    omega

theorem prepare_tpf (mm : MMState) (arena : List Process) (pid t : Int) :
    mm.total_page_faults ≤
      (prepareProcessForCpu mm arena pid t).2.1.total_page_faults := by
  unfold prepareProcessForCpu
  repeat' first
  | exact le_refl _
  | exact le_of_eq rfl
  | exact enqueueFold_tpf _ _ _ _
  | split
  | dsimp only

theorem admitOne_ct {π : Type} (s : CSState π) (pid : Int) :
    (admitOne s pid).current_time = s.current_time := by
  unfold admitOne
  repeat' first
  | rfl
  | split
  | dsimp only

theorem admitOne_cs {π : Type} (s : CSState π) (pid : Int) :
    (admitOne s pid).context_switches = s.context_switches := by
  unfold admitOne
  repeat' first
  | rfl
  | split
  | dsimp only

theorem admitOne_tpf {π : Type} (s : CSState π) (pid : Int) :
    (admitOne s pid).mm.total_page_faults = s.mm.total_page_faults := by
  unfold admitOne
  repeat' first
  | rfl
  | split
  | dsimp only

theorem foldAdmit_keeps {π : Type} (l : List Int) :
    ∀ s : CSState π,
    (l.foldl admitOne s).current_time = s.current_time ∧
    (l.foldl admitOne s).context_switches = s.context_switches ∧
    (l.foldl admitOne s).mm.total_page_faults = s.mm.total_page_faults := by
  induction l with
  | nil => intro s; exact ⟨rfl, rfl, rfl⟩
  | cons a rest ih =>
    intro s
    rw [List.foldl_cons]
    obtain ⟨h1, h2, h3⟩ := ih (admitOne s a)
    exact ⟨h1.trans (admitOne_ct s a), h2.trans (admitOne_cs s a),
           h3.trans (admitOne_tpf s a)⟩

theorem addArrived_ct {π : Type} (s : CSState π) :
    (addArrivedProcesses s).current_time = s.current_time :=
  (foldAdmit_keeps _ s).1

theorem addArrived_cs {π : Type} (s : CSState π) :
    (addArrivedProcesses s).context_switches = s.context_switches :=
  (foldAdmit_keeps _ s).2.1

theorem addArrived_tpf {π : Type} (s : CSState π) :
    (addArrivedProcesses s).mm.total_page_faults = s.mm.total_page_faults :=
  (foldAdmit_keeps _ s).2.2

theorem runStep_eq {π : Type} (pol : Policy π) (q : Int) (s : CSState π)
    (pid : Int) (c : Bool) :
    runStep pol q s pid c =
      afterExec pol
        { (execRunning q (csUpdateProc s pid
              (fun p => { p with state := ProcessState.RUNNING })) pid).2 with
            total_cpu_time :=
              (execRunning q (csUpdateProc s pid
                (fun p => { p with state := ProcessState.RUNNING })) pid).2.total_cpu_time +
              (execRunning q (csUpdateProc s pid
                (fun p => { p with state := ProcessState.RUNNING })) pid).1 }
        pid c
        (execRunning q (csUpdateProc s pid
          (fun p => { p with state := ProcessState.RUNNING })) pid).1
        (csUpdateProc s pid
          (fun p => { p with state := ProcessState.RUNNING })).current_time := rfl

theorem runStep_mono {π : Type} (pol : Policy π) (q : Int) (s : CSState π)
    (pid : Int) (c : Bool) (h : WfProcs s.procs) :
    s.current_time ≤ (runStep pol q s pid c).current_time ∧
    (runStep pol q s pid c).context_switches = s.context_switches ∧
    (runStep pol q s pid c).mm.total_page_faults = s.mm.total_page_faults := by
  have hw1 : WfProcs (csUpdateProc s pid
      (fun p => { p with state := ProcessState.RUNNING })).procs :=
    wf_arenaUpdate _ _ _ (fun p => ⟨rfl, rfl⟩) h
  have hte := execRunning_te q (csUpdateProc s pid
    (fun p => { p with state := ProcessState.RUNNING })) pid hw1
  refine ⟨?_, ?_, ?_⟩
  · rw [runStep_eq, afterExec_ct]
    dsimp only
    rw [execRunning_ct]
    rw [show (csUpdateProc s pid
      (fun p => { p with state := ProcessState.RUNNING })).current_time =
        s.current_time from rfl]
    omega
  · rw [runStep_eq, afterExec_cs]
    dsimp only
    rw [execRunning_cs]
    rfl
  · rw [runStep_eq, afterExec_tpf]
    dsimp only
    rw [execRunning_mm]
    rfl

theorem dispatchStep_mono {π : Type} (pol : Policy π) (q : Int) (s : CSState π)
    (pid : Int) (h : WfProcs s.procs) :
    s.current_time ≤ (dispatchStep pol q s pid).current_time ∧
    s.context_switches ≤ (dispatchStep pol q s pid).context_switches ∧
    s.mm.total_page_faults ≤ (dispatchStep pol q s pid).mm.total_page_faults := by
  unfold dispatchStep
  dsimp only
  generalize (match s.running_process with
              | none => true
              | some rp => rp != pid) = cso
  split
  · refine ⟨?_, ?_, ?_⟩
    · rw [memFailStep_ct, dispatchPrep_ct]
    · rw [memFailStep_cs]
      exact dispatchPrep_cs _ _ _
    · rw [memFailStep_mm, dispatchPrep_mm]
      exact prepare_tpf _ _ _ _
  · split
    · refine ⟨?_, ?_, ?_⟩
      · rw [ioDispatchStep_ct, dispatchPrep_ct]
      · rw [ioDispatchStep_cs]
        exact dispatchPrep_cs _ _ _
      · rw [ioDispatchStep_mm, dispatchPrep_mm]
        exact prepare_tpf _ _ _ _
    · have hw2 : WfProcs (dispatchPrep s pid cso).2.procs := by
        rw [dispatchPrep_procs]
        exact wf_prepare _ _ _ _ h
      obtain ⟨m1, m2, m3⟩ := runStep_mono pol q (dispatchPrep s pid cso).2 pid cso hw2
      refine ⟨?_, ?_, ?_⟩
      · exact le_trans (le_of_eq (dispatchPrep_ct s pid cso).symm) m1
      · rw [m2]
        exact dispatchPrep_cs _ _ _
      · rw [m3, dispatchPrep_mm]
        exact prepare_tpf _ _ _ _

/-- C2: when the ready queue yields no runnable candidate but pending work
remains, the step is an idle sub-tick.  Confirmed branch (queue already
empty): memory fault queue and devices advance one sub-tick, an IDLE event
is emitted, the clock advances.  Corrected branch (queue held only stale
entries and drained): only the devices advance and the clock; the memory
fault queue is NOT advanced and no IDLE event is emitted. -/
theorem C2_idle_step {π : Type} (pol : Policy π) (quantum : Int) (s s1 : CSState π)
    (h1 : addArrivedProcesses s = s1) :
    (s1.ready_queue.isEmpty = true → hasPendingProcesses s1 = true →
      execStepCore pol quantum s = idleStep pol s1 ∧
      (execStepCore pol quantum s).current_time = s1.current_time + 1 ∧
      (execStepCore pol quantum s).mm =
        (mmSubTick pol s1.ps s1.mm s1.procs s1.current_time).1 ∧
      ∃ ev : CpuEvent, (execStepCore pol quantum s).cpu_events = s1.cpu_events ++ [ev] ∧
        ev.event = "IDLE") ∧
    (s1.ready_queue.isEmpty = false →
      (skipStale s1.procs s1.ready_queue).2 = none →
      hasPendingProcesses { s1 with
        ready_queue := (skipStale s1.procs s1.ready_queue).1 } = true →
      (execStepCore pol quantum s).current_time = s1.current_time + 1 ∧
      (execStepCore pol quantum s).mm = s1.mm ∧
      (execStepCore pol quantum s).cpu_events = s1.cpu_events) := by
  constructor
  · intro hempty hpend
    have hstep : execStepCore pol quantum s = idleStep pol s1 := by
      unfold execStepCore
      rw [h1]
      dsimp only
      rw [if_pos hempty, if_pos hpend]
    refine ⟨hstep, ?_, ?_, ?_⟩
    · rw [hstep, idleStep_ct]
    · rw [hstep, idleStep_mm]
    · rw [hstep]
      exact idleStep_events pol s1
  · intro hne hsk hpend
    have hstep : execStepCore pol quantum s =
        drainStep { s1 with ready_queue := (skipStale s1.procs s1.ready_queue).1 } := by
      unfold execStepCore
      rw [h1]
      dsimp only
      rw [if_neg (by simp [hne])]
      rw [hsk]
      dsimp only
      rw [if_pos hpend]
    refine ⟨?_, ?_, ?_⟩
    · rw [hstep, drainStep_ct]
    · rw [hstep, drainStep_mm]
    · rw [hstep, drainStep_ev]

theorem C2_idle_step_witness :
    (execStepCore lruPolicy 0 csC2w).current_time = csC2w.current_time + 1 ∧
    (execStepCore lruPolicy 0 csC2w).mm =
      (mmSubTick lruPolicy csC2w.ps csC2w.mm csC2w.procs csC2w.current_time).1 ∧
    (execStepCore lruPolicy 0 csC2).current_time = csC2.current_time + 1 ∧
    (execStepCore lruPolicy 0 csC2).mm = csC2.mm ∧
    (execStepCore lruPolicy 0 csC2).cpu_events = csC2.cpu_events :=
  ⟨((C2_idle_step lruPolicy 0 csC2w csC2w (by decide)).1 (by decide) (by decide)).2.1,
   ((C2_idle_step lruPolicy 0 csC2w csC2w (by decide)).1 (by decide) (by decide)).2.2.1,
   ((C2_idle_step lruPolicy 0 csC2 csC2 (by decide)).2 (by decide) (by decide) (by decide)).1,
   ((C2_idle_step lruPolicy 0 csC2 csC2 (by decide)).2 (by decide) (by decide) (by decide)).2.1,
   ((C2_idle_step lruPolicy 0 csC2 csC2 (by decide)).2 (by decide) (by decide) (by decide)).2.2⟩

theorem C2_counterexample :
    addArrivedProcesses csC2 = csC2 ∧
    csC2.ready_queue.isEmpty = false ∧
    (skipStale csC2.procs csC2.ready_queue).2 = none ∧
    hasPendingProcesses csC2 = true ∧
    csC2.mm.active_task.isSome = true ∧
    (execStepCore lruPolicy 0 csC2).current_time = csC2.current_time + 1 ∧
    (execStepCore lruPolicy 0 csC2).mm = csC2.mm ∧
    (execStepCore lruPolicy 0 csC2).cpu_events = [] := by
  decide

/-- C8: one scheduler step never decreases the clock, the context-switch
counter or the global page-fault counter (for registries whose remaining
times are non-negative, as produced by loading and preserved by running). -/
theorem C8_monotone {π : Type} (pol : Policy π) (quantum : Int) (s : CSState π)
    (hwf : WfProcs s.procs) :
    ∀ s2, execStep pol quantum s = Except.ok s2 →
      s.current_time ≤ s2.current_time ∧
      s.context_switches ≤ s2.context_switches ∧
      s.mm.total_page_faults ≤ s2.mm.total_page_faults := by
  intro s2 h
  have hcore : execStepCore pol quantum s = s2 := by
    have h2 : Except.ok (ε := StepErr) (execStepCore pol quantum s) = Except.ok s2 := h
    injection h2
  subst hcore
  have h1 := addArrived_ct s
  have h2cs := addArrived_cs s
  have h3 := addArrived_tpf s
  have hw1 := wf_addArrived s hwf
  unfold execStepCore
  dsimp only
  split
  · split
    · refine ⟨?_, ?_, ?_⟩
      · rw [idleStep_ct, h1]
        omega
      · exact le_of_eq (h2cs.symm.trans (idleStep_cs pol (addArrivedProcesses s)).symm)
      · exact le_of_eq (h3.symm.trans (idleStep_tpf pol (addArrivedProcesses s)).symm)
    · exact ⟨le_of_eq h1.symm, le_of_eq h2cs.symm, le_of_eq h3.symm⟩
  · split
    · split
      · refine ⟨?_, ?_, ?_⟩
        · rw [drainStep_ct]
          dsimp only
          rw [h1]
          omega
        · refine le_of_eq ?_
          rw [drainStep_cs]
          exact h2cs.symm
        · refine le_of_eq ?_
          rw [drainStep_mm]
          exact h3.symm
      · exact ⟨le_of_eq h1.symm, le_of_eq h2cs.symm, le_of_eq h3.symm⟩
    · rename_i npid heq
      have hm := dispatchStep_mono pol quantum
        { addArrivedProcesses s with
            ready_queue := (skipStale (addArrivedProcesses s).procs
              (addArrivedProcesses s).ready_queue).1 } npid hw1
      exact ⟨le_trans (le_of_eq h1.symm) hm.1,
             le_trans (le_of_eq h2cs.symm) hm.2.1,
             le_trans (le_of_eq h3.symm) hm.2.2⟩

theorem C8_monotone_witness :
    csC2.current_time ≤ (execStepCore lruPolicy 0 csC2).current_time ∧
    csC2.context_switches ≤ (execStepCore lruPolicy 0 csC2).context_switches ∧
    csC2.mm.total_page_faults ≤ (execStepCore lruPolicy 0 csC2).mm.total_page_faults :=
  C8_monotone lruPolicy 0 csC2 (by decide) (execStepCore lruPolicy 0 csC2) rfl

end OSSim
